import Mathlib

/-!
Shallow embedding of the real-time session/match server (the persisted
variant, `src/unnamed/part_000`, with its database layer `src/server/src/db.ts`).

In-memory stores (`onlineUsers`, `rooms`, `emailToSocketId`) are JavaScript
`Map`s keyed by strings; they are embedded as association lists whose
`ainsert` mirrors `Map.set` (replace in place, else append), `aerase`
mirrors `Map.delete`, and `alookup` mirrors `Map.get`.  The SQLite users
table is embedded as a list of rows.  Each `socket.on` handler becomes a
function from server state and payload to the new state plus the list of
emitted notifications.
-/

/-- Association-list lookup, mirroring JavaScript `Map.get`. -/
def alookup {α β : Type} [DecidableEq α] : List (α × β) → α → Option β
  | [], _ => none
  | (k, v) :: rest, key => if k = key then some v else alookup rest key

/-- Association-list insert, mirroring `Map.set`: replace the entry in place
if the key is present, otherwise append. -/
def ainsert {α β : Type} [DecidableEq α] : List (α × β) → α → β → List (α × β)
  | [], k, v => [(k, v)]
  | (k1, v1) :: rest, k, v =>
      if k1 = k then (k, v) :: rest else (k1, v1) :: ainsert rest k v

/-- Association-list delete, mirroring `Map.delete` (keys are unique in a
JavaScript `Map`, so removing the first occurrence is exact). -/
def aerase {α β : Type} [DecidableEq α] : List (α × β) → α → List (α × β)
  | [], _ => []
  | (k1, v1) :: rest, k =>
      if k1 = k then rest else (k1, v1) :: aerase rest k

/-- Uniqueness of keys, the `Map` representation invariant. -/
def keysNodup {α β : Type} (l : List (α × β)) : Prop :=
  (l.map Prod.fst).Nodup

instance {α β : Type} [DecidableEq α] (l : List (α × β)) : Decidable (keysNodup l) :=
  inferInstanceAs (Decidable ((l.map Prod.fst).Nodup))

/-- A row of the `users` table (db.ts): id, email, username, points. -/
structure DbUser where
  id : Nat
  email : String
  username : String
  points : Int
  deriving DecidableEq, Repr

/-- db.ts `getUserById`: `SELECT ... FROM users WHERE id = ?`. -/
def getUserById (db : List DbUser) (userId : Nat) : Option DbUser :=
  db.find? (fun u => u.id = userId)

/-- db.ts `getUserPoints`: returns the stored points, or 0 when the row is
absent (`user?.points || 0`). -/
def getUserPoints (db : List DbUser) (userId : Nat) : Int :=
  match getUserById db userId with
  | some u => u.points
  | none => 0

/-- db.ts `updateUserPoints`: `UPDATE users SET points = ? WHERE id = ?`. -/
def updateUserPoints (db : List DbUser) (userId : Nat) (newPoints : Int) : List DbUser :=
  db.map (fun u => if u.id = userId then { u with points := newPoints } else u)

/-- The `OnlineUser` record of part_000: socket id, db user id, email,
username, and the in-memory (cached) points balance. -/
structure OnlineUser where
  id : String
  userId : Nat
  email : String
  username : String
  points : Int
  deriving DecidableEq, Repr

/-- The `GameType` payload field; only `"rps"` exists in the source, other
strings are collapsed into one constructor. -/
inductive GameType
  | rps
  | other
  deriving DecidableEq, Repr

/-- Rock-paper-scissors move (`RPSChoice`). -/
inductive RPSChoice
  | rock
  | paper
  | scissors
  deriving DecidableEq, Repr

/-- Room status: `"waiting" | "playing" | "finished"`. -/
inductive RoomStatus
  | waiting
  | playing
  | finished
  deriving DecidableEq, Repr

/-- The `Room` record of part_000.  `gameData` is the pending-moves object
(socket id to recorded move); a room is created without it, which is
observationally the empty mapping here. -/
structure Room where
  id : String
  gameType : GameType
  hostId : String
  players : List String
  status : RoomStatus
  betAmount : Int
  gameData : List (String × RPSChoice)
  deriving DecidableEq, Repr

/-- The result record produced by `calculateRPSResult` (game/rps.ts). -/
structure GameResult where
  winnerId : Option String
  loserId : Option String
  isDraw : Bool
  pointsChange : List (String × Int)
  deriving DecidableEq, Repr

/-- Modelled from the spec: the pure game resolver `calculateRPSResult` of
`game/rps.ts` is not under src/ (only its callers are).  Per the spec it
implements the three-move cyclic dominance: rock beats scissors, scissors
beats paper, paper beats rock. -/
def beats : RPSChoice → RPSChoice → Bool
  | RPSChoice.rock, RPSChoice.scissors => true
  | RPSChoice.scissors, RPSChoice.paper => true
  | RPSChoice.paper, RPSChoice.rock => true
  | _, _ => false

/-- Modelled from the spec: `calculateRPSResult(player1Id, player1Choice,
player2Id, player2Choice, betAmount)` of game/rps.ts, which is not under
src/.  Equal moves give a draw with both deltas 0; otherwise the winner's
delta is `+betAmount` and the loser's is `-betAmount` (zero-sum, per spec
sections 4.3 and 8).  `pointsChange` is a JavaScript object keyed by the
participants' socket ids. -/
def calculateRPSResult (p1 : String) (c1 : RPSChoice) (p2 : String) (c2 : RPSChoice)
    (bet : Int) : GameResult :=
  if c1 = c2 then
    { winnerId := none, loserId := none, isDraw := true,
      pointsChange := ainsert (ainsert [] p1 0) p2 0 }
  else if beats c1 c2 then
    { winnerId := some p1, loserId := some p2, isDraw := false,
      pointsChange := ainsert (ainsert [] p1 bet) p2 (-bet) }
  else
    { winnerId := some p2, loserId := some p1, isDraw := false,
      pointsChange := ainsert (ainsert [] p2 bet) p1 (-bet) }

/-- Error kinds, one per distinct rejection message emitted by the server. -/
inductive ErrKind
  | loginRequired
  | insufficientPoints
  | roomNotFound
  | roomFull
  | notJoinable
  | invalidRoom
  | notInRoom
  | playerNotFound
  | invalidAmount
  | targetNotFound
  | targetOffline
  deriving DecidableEq, Repr

/-- Login-rejection kinds of the `login` handler. -/
inductive LoginErr
  | userNotFound
  | alreadyOnline
  | serverFull
  deriving DecidableEq, Repr

/-- Outbound notifications, one constructor per distinct `emit` event of
part_000, carrying the payload fields the claims are about. -/
inductive Emit
  | loginError (k : LoginErr)
  | loginSuccess
  | userJoined
  | onlineUsersUpdated
  | roomListUpdated
  | roomCreated (roomId : String)
  | errorMsg (k : ErrKind)
  | gameStarted (roomId : String)
  | roomJoined (roomId : String)
  | playerJoinedRoom (roomId : String)
  | choiceReceived
  | gameResult (roomId : String) (result : GameResult)
  | gameContinue (roomId : String)
  | transferSuccess (newPoints : Int)
  | pointsReceived (newPoints : Int)
  | userLeft
  | playerLeftRoom (roomId : String)
  deriving DecidableEq, Repr

/-- The whole server state: the durable users table plus the three
in-memory maps of part_000. -/
structure ServerState where
  db : List DbUser
  onlineUsers : List (String × OnlineUser)
  rooms : List (String × Room)
  emailToSocketId : List (String × String)
  deriving DecidableEq, Repr

/-- `MAX_ONLINE_USERS` of part_000. -/
def maxOnlineUsers : Nat := 8

/-- The cached-balance refresh pattern of part_000:
`const currentPoints = getUserPoints(u.userId); if (currentPoints !== u.points) u.points = currentPoints`. -/
def refreshUser (db : List DbUser) (u : OnlineUser) : OnlineUser :=
  let currentPoints := getUserPoints db u.userId
  if currentPoints ≠ u.points then { u with points := currentPoints } else u

/-- The `login` handler of part_000 (lines 135-195): db lookup, duplicate
check on the payload email, capacity check, then registration.  Note the
duplicate index is keyed by the client-supplied payload email while the
session record stores the database email. -/
def handleLogin (st : ServerState) (sid : String) (userId : Nat) (email : String) :
    ServerState × List Emit :=
  match getUserById st.db userId with
  | none => (st, [Emit.loginError LoginErr.userNotFound])
  | some dbUser =>
    if (alookup st.emailToSocketId email).isSome then
      (st, [Emit.loginError LoginErr.alreadyOnline])
    else if st.onlineUsers.length ≥ maxOnlineUsers then
      (st, [Emit.loginError LoginErr.serverFull])
    else
      let u : OnlineUser :=
        { id := sid, userId := dbUser.id, email := dbUser.email,
          username := dbUser.username, points := dbUser.points }
      ({ st with
          onlineUsers := ainsert st.onlineUsers sid u,
          emailToSocketId := ainsert st.emailToSocketId email sid },
       [Emit.loginSuccess, Emit.userJoined, Emit.onlineUsersUpdated])

/-- The `create_room` handler of part_000 (lines 198-238): login check,
refresh cached points from the database, fixed 100-point stake, balance
check, then room creation with the requester as sole member. -/
def handleCreateRoom (st : ServerState) (sid : String) (gt : GameType)
    (newRoomId : String) : ServerState × List Emit :=
  match alookup st.onlineUsers sid with
  | none => (st, [Emit.errorMsg ErrKind.loginRequired])
  | some user =>
    let user := refreshUser st.db user
    let st1 := { st with onlineUsers := ainsert st.onlineUsers sid user }
    let betAmount : Int := if gt = GameType.rps then 100 else 100
    if user.points < betAmount then
      (st1, [Emit.errorMsg ErrKind.insufficientPoints])
    else
      let room : Room :=
        { id := newRoomId, gameType := gt, hostId := sid, players := [sid],
          status := RoomStatus.waiting, betAmount := betAmount, gameData := [] }
      ({ st1 with rooms := ainsert st1.rooms newRoomId room },
       [Emit.roomCreated newRoomId, Emit.roomListUpdated])

/-- The `join_room` handler of part_000 (lines 241-301): login check,
refresh, room lookup, full check, status check, balance check, then push;
two members flips the room to playing. -/
def handleJoinRoom (st : ServerState) (sid : String) (roomId : String) :
    ServerState × List Emit :=
  match alookup st.onlineUsers sid with
  | none => (st, [Emit.errorMsg ErrKind.loginRequired])
  | some user =>
    let user := refreshUser st.db user
    let st1 := { st with onlineUsers := ainsert st.onlineUsers sid user }
    match alookup st1.rooms roomId with
    | none => (st1, [Emit.errorMsg ErrKind.roomNotFound])
    | some room =>
      if room.players.length ≥ 2 then
        (st1, [Emit.errorMsg ErrKind.roomFull])
      else if room.status ≠ RoomStatus.waiting then
        (st1, [Emit.errorMsg ErrKind.notJoinable])
      else if user.points < room.betAmount then
        (st1, [Emit.errorMsg ErrKind.insufficientPoints])
      else
        let room1 := { room with players := room.players ++ [sid] }
        if room1.players.length = 2 then
          let room2 := { room1 with status := RoomStatus.playing }
          ({ st1 with rooms := ainsert st1.rooms roomId room2 },
           [Emit.gameStarted roomId, Emit.roomListUpdated])
        else
          ({ st1 with rooms := ainsert st1.rooms roomId room1 },
           [Emit.roomJoined roomId, Emit.playerJoinedRoom roomId, Emit.roomListUpdated])

/-- The settlement loop of the `rps_choice` handler (part_000 lines
351-364): for each entry of `pointsChange`, if that socket is online, add
the delta to the cached balance and write the result to the database. -/
def applySettlement (st : ServerState) (pc : List (String × Int)) : ServerState :=
  pc.foldl
    (fun s kv =>
      match alookup s.onlineUsers kv.1 with
      | none => s
      | some player =>
        let newPoints := player.points + kv.2
        { s with
            onlineUsers := ainsert s.onlineUsers kv.1 { player with points := newPoints },
            db := updateUserPoints s.db player.userId newPoints })
    st

/-- The `rps_choice` handler of part_000 (lines 304-407): room and
membership checks (no status check), record the move, and when both
members' moves are present resolve the round, settle points, and either
reset for a draw or mark the room finished (without clearing `gameData`). -/
def handleRpsChoice (st : ServerState) (sid : String) (roomId : String)
    (choice : RPSChoice) : ServerState × List Emit :=
  match alookup st.rooms roomId with
  | none => (st, [Emit.errorMsg ErrKind.invalidRoom])
  | some room =>
    if room.gameType ≠ GameType.rps then (st, [Emit.errorMsg ErrKind.invalidRoom])
    else if sid ∉ room.players then (st, [Emit.errorMsg ErrKind.notInRoom])
    else
      let gd := ainsert room.gameData sid choice
      let room1 := { room with gameData := gd }
      let st1 := { st with rooms := ainsert st.rooms roomId room1 }
      match room1.players with
      | p1 :: p2 :: _ =>
        match alookup gd p1, alookup gd p2 with
        | some c1, some c2 =>
          match alookup st1.onlineUsers p1, alookup st1.onlineUsers p2 with
          | some _, some _ =>
            let res := calculateRPSResult p1 c1 p2 c2 room1.betAmount
            let st2 := applySettlement st1 res.pointsChange
            if res.isDraw then
              let room2 := { room1 with gameData := [], status := RoomStatus.playing }
              ({ st2 with rooms := ainsert st2.rooms roomId room2 },
               [Emit.gameResult roomId res, Emit.gameContinue roomId])
            else
              let room2 := { room1 with status := RoomStatus.finished }
              ({ st2 with rooms := ainsert st2.rooms roomId room2 },
               [Emit.gameResult roomId res])
          | _, _ => (st1, [Emit.errorMsg ErrKind.playerNotFound])
        | _, _ => (st1, [Emit.choiceReceived])
      | _ => (st1, [Emit.choiceReceived])

/-- The `transfer_points` handler of part_000 (lines 410-486): login check,
positive-amount check, refresh sender, balance check, recipient lookup via
the email index, refresh recipient, then debit/credit both the cached
balances and the database, in the source's assignment order (both new
values are computed before either assignment, reproducing the behaviour
when sender and recipient are the same session). -/
def handleTransfer (st : ServerState) (sid : String) (targetEmail : String)
    (amount : Int) : ServerState × List Emit :=
  match alookup st.onlineUsers sid with
  | none => (st, [Emit.errorMsg ErrKind.loginRequired])
  | some sender =>
    if amount ≤ 0 then (st, [Emit.errorMsg ErrKind.invalidAmount])
    else
      let sender := refreshUser st.db sender
      let st1 := { st with onlineUsers := ainsert st.onlineUsers sid sender }
      if sender.points < amount then
        (st1, [Emit.errorMsg ErrKind.insufficientPoints])
      else
        match alookup st1.emailToSocketId targetEmail with
        | none => (st1, [Emit.errorMsg ErrKind.targetNotFound])
        | some targetSocketId =>
          match alookup st1.onlineUsers targetSocketId with
          | none => (st1, [Emit.errorMsg ErrKind.targetOffline])
          | some target =>
            let target := refreshUser st1.db target
            let st2 := { st1 with onlineUsers := ainsert st1.onlineUsers targetSocketId target }
            let senderNewPoints := sender.points - amount
            let targetNewPoints := target.points + amount
            let st3 := { st2 with
              onlineUsers :=
                ainsert (ainsert st2.onlineUsers sid { sender with points := senderNewPoints })
                  targetSocketId { target with points := targetNewPoints } }
            let st4 := { st3 with
              db := updateUserPoints (updateUserPoints st3.db sender.userId senderNewPoints)
                      target.userId targetNewPoints }
            let senderShown := if targetSocketId = sid then targetNewPoints else senderNewPoints
            (st4,
             [Emit.transferSuccess senderShown, Emit.pointsReceived targetNewPoints,
              Emit.onlineUsersUpdated])

/-- One step of the `disconnect` room-cleanup loop (part_000 lines
496-510): drop the departing socket from the room, deleting the room when
it empties and otherwise notifying the survivors and resetting the status
to waiting.  The recorded `gameData` entry of the departing socket is not
touched. -/
def disconnectRoomStep (sid : String) (acc : List (String × Room) × List Emit)
    (entry : String × Room) : List (String × Room) × List Emit :=
  if sid ∈ entry.2.players then
    let ps := entry.2.players.filter (fun pid => pid ≠ sid)
    if ps.length = 0 then acc
    else
      (acc.1 ++ [(entry.1, { entry.2 with players := ps, status := RoomStatus.waiting })],
       acc.2 ++ [Emit.playerLeftRoom entry.1])
  else (acc.1 ++ [entry], acc.2)

/-- The `disconnect` handler of part_000 (lines 489-523): if the socket has
a session, remove it from both indexes, unwind room membership, and
broadcast; otherwise do nothing at all. -/
def handleDisconnect (st : ServerState) (sid : String) : ServerState × List Emit :=
  match alookup st.onlineUsers sid with
  | none => (st, [])
  | some user =>
    let users1 := aerase st.onlineUsers sid
    let emails1 := aerase st.emailToSocketId user.email
    let cleaned := st.rooms.foldl (disconnectRoomStep sid) ([], [])
    ({ db := st.db, onlineUsers := users1, rooms := cleaned.1, emailToSocketId := emails1 },
     cleaned.2 ++ [Emit.userLeft, Emit.onlineUsersUpdated, Emit.roomListUpdated])

/-- An inbound client event, one constructor per `socket.on` handler.  Room
ids are generated from the clock and a random suffix in the source, so the
fresh id is part of the event. -/
inductive Event
  | login (sid : String) (userId : Nat) (email : String)
  | createRoom (sid : String) (gt : GameType) (newRoomId : String)
  | joinRoom (sid : String) (roomId : String)
  | rpsChoice (sid : String) (roomId : String) (choice : RPSChoice)
  | transferPoints (sid : String) (targetEmail : String) (amount : Int)
  | disconnect (sid : String)
  deriving DecidableEq, Repr

/-- The single-threaded event dispatcher: one inbound event is handled to
completion before the next. -/
def applyEvent (st : ServerState) : Event → ServerState × List Emit
  | Event.login sid userId email => handleLogin st sid userId email
  | Event.createRoom sid gt newRoomId => handleCreateRoom st sid gt newRoomId
  | Event.joinRoom sid roomId => handleJoinRoom st sid roomId
  | Event.rpsChoice sid roomId choice => handleRpsChoice st sid roomId choice
  | Event.transferPoints sid targetEmail amount => handleTransfer st sid targetEmail amount
  | Event.disconnect sid => handleDisconnect st sid

/-- Server boot state over a pre-registered users table: no sessions, no
rooms, empty email index. -/
def initState (db0 : List DbUser) : ServerState :=
  { db := db0, onlineUsers := [], rooms := [], emailToSocketId := [] }

/-- Run a sequence of inbound events, keeping only the state. -/
def runEvents (st : ServerState) (evs : List Event) : ServerState :=
  evs.foldl (fun s ev => (applyEvent s ev).1) st

/-- States reachable from boot through events satisfying a side condition
`P` (instantiated with the always-true condition for plain reachability). -/
inductive ReachVia (P : ServerState → Event → Bool) (db0 : List DbUser) : ServerState → Prop
  | init : ReachVia P db0 (initState db0)
  | step (st : ServerState) (ev : Event) : ReachVia P db0 st → P st ev = true →
      ReachVia P db0 (applyEvent st ev).1

/-- The verified-identity assumption of the spec (section 1): the HTTP
authentication layer hands the socket layer the account's own email, so a
`login` event's payload email matches the database email of the account it
names.  All other events are unconstrained. -/
def okEvent (st : ServerState) : Event → Bool
  | Event.login _ userId email =>
      match getUserById st.db userId with
      | some d => d.email = email
      | none => true
  | _ => true

/-- No two distinct live sessions carry the same email. -/
def sessionEmailUnique (st : ServerState) : Prop :=
  ∀ s1 s2 u1 u2, alookup st.onlineUsers s1 = some u1 →
    alookup st.onlineUsers s2 = some u2 → u1.email = u2.email → s1 = s2

/-- Every live session's email is present in the email-to-socket index. -/
def sessionEmailIndexed (st : ServerState) : Prop :=
  ∀ s u, alookup st.onlineUsers s = some u →
    (alookup st.emailToSocketId u.email).isSome

/-- Every live session's email and account id agree with the users table. -/
def sessionEmailFromDb (st : ServerState) : Prop :=
  ∀ s u, alookup st.onlineUsers s = some u →
    ∃ d, getUserById st.db u.userId = some d ∧ d.email = u.email

/-- The session-registry invariant maintained by the event loop (under the
spec's verified-identity assumption on login payloads). -/
def SessionInv (st : ServerState) : Prop :=
  keysNodup st.onlineUsers ∧ sessionEmailUnique st ∧
    sessionEmailIndexed st ∧ sessionEmailFromDb st

/-- Two states agree on which sessions exist and on every session's
identity (email and account id) and on the email index and the table's
emails; only cached/stored points and rooms may differ. -/
def SameUsersShape (st st1 : ServerState) : Prop :=
  st1.onlineUsers.map Prod.fst = st.onlineUsers.map Prod.fst ∧
  (∀ s, (alookup st1.onlineUsers s).map (fun u => (u.email, u.userId)) =
        (alookup st.onlineUsers s).map (fun u => (u.email, u.userId))) ∧
  st1.emailToSocketId = st.emailToSocketId ∧
  (∀ uid, (getUserById st1.db uid).map (fun d => d.email) =
          (getUserById st.db uid).map (fun d => d.email))

/-- Every room holds at most two members. -/
def RoomInv (st : ServerState) : Prop :=
  ∀ e ∈ st.rooms, e.2.players.length ≤ 2

/-! ### Concrete fixtures used by counterexamples and witnesses -/

/-- A demo users table with three registered accounts of 1000 points. -/
def dbDemo : List DbUser :=
  [⟨1, "a", "A", 1000⟩, ⟨2, "b", "B", 1000⟩, ⟨3, "c", "C", 1000⟩]

/-- A and B log in, each creates a room, then A (already hosting `r1`)
joins B's room `r2`. -/
def stTwoRooms : ServerState :=
  runEvents (initState dbDemo)
    [Event.login "sA" 1 "a", Event.login "sB" 2 "b",
     Event.createRoom "sA" GameType.rps "r1", Event.createRoom "sB" GameType.rps "r2",
     Event.joinRoom "sA" "r2"]

/-- A and B play in `r1`; A records a move, then A disconnects mid-round. -/
def stVanish : ServerState :=
  runEvents (initState dbDemo)
    [Event.login "sA" 1 "a", Event.login "sB" 2 "b",
     Event.createRoom "sA" GameType.rps "r1", Event.joinRoom "sB" "r1",
     Event.rpsChoice "sA" "r1" RPSChoice.rock, Event.disconnect "sA"]

/-- A full round in `r1` has been settled decisively (A won the stake). -/
def stFinished : ServerState :=
  runEvents (initState dbDemo)
    [Event.login "sA" 1 "a", Event.login "sB" 2 "b",
     Event.createRoom "sA" GameType.rps "r1", Event.joinRoom "sB" "r1",
     Event.rpsChoice "sA" "r1" RPSChoice.rock, Event.rpsChoice "sB" "r1" RPSChoice.scissors]

/-- A, B and C online; room `r1` already holds its two members A and B. -/
def stFull : ServerState :=
  runEvents (initState dbDemo)
    [Event.login "sA" 1 "a", Event.login "sB" 2 "b", Event.login "sC" 3 "c",
     Event.createRoom "sA" GameType.rps "r1", Event.joinRoom "sB" "r1"]

/-- A mid-round state in which A's durable balance (500) was changed after
A's cached balance (1000) was last refreshed, as the spec's concurrency
model postulates for a concurrent settlement or transfer through another
connection; B has already recorded scissors. -/
def stStaleLedger : ServerState :=
  { db := [⟨1, "a", "A", 500⟩, ⟨2, "b", "B", 1000⟩],
    onlineUsers := [("sA", ⟨"sA", 1, "a", "A", 1000⟩), ("sB", ⟨"sB", 2, "b", "B", 1000⟩)],
    rooms := [("r1", ⟨"r1", GameType.rps, "sA", ["sA", "sB"], RoomStatus.playing, 100,
                [("sB", RPSChoice.scissors)]⟩)],
    emailToSocketId := [("a", "sA"), ("b", "sB")] }

/-- A alone online with a synced 1000-point balance. -/
def stSelfTransfer : ServerState :=
  { db := [⟨1, "a", "A", 1000⟩],
    onlineUsers := [("sA", ⟨"sA", 1, "a", "A", 1000⟩)],
    rooms := [], emailToSocketId := [("a", "sA")] }

/-- A's cached balance (1000) is stale against the durable ledger (40). -/
def stStaleTransfer : ServerState :=
  { db := [⟨1, "a", "A", 40⟩, ⟨2, "b", "B", 1000⟩],
    onlineUsers := [("sA", ⟨"sA", 1, "a", "A", 1000⟩), ("sB", ⟨"sB", 2, "b", "B", 1000⟩)],
    rooms := [], emailToSocketId := [("a", "sA"), ("b", "sB")] }

/-- A and B online with synced 1000-point balances (transfer witness). -/
def stPair : ServerState :=
  { db := [⟨1, "a", "A", 1000⟩, ⟨2, "b", "B", 1000⟩],
    onlineUsers := [("sA", ⟨"sA", 1, "a", "A", 1000⟩), ("sB", ⟨"sB", 2, "b", "B", 1000⟩)],
    rooms := [], emailToSocketId := [("a", "sA"), ("b", "sB")] }

/-- Account A holds only 50 points, both durably and in cache. -/
def stPoor : ServerState :=
  { db := [⟨1, "a", "A", 50⟩],
    onlineUsers := [("sA", ⟨"sA", 1, "a", "A", 50⟩)],
    rooms := [], emailToSocketId := [("a", "sA")] }

/-- A single-account table for the duplicate-login witness. -/
def dbSolo : List DbUser := [⟨1, "a", "A", 1000⟩]

/-- Account 1 has logged in once on socket `s1`. -/
def stOneLogin : ServerState :=
  (applyEvent (initState dbSolo) (Event.login "s1" 1 "a")).1

/-! ### Association-list lemmas -/

theorem alookup_ainsert {α β : Type} [DecidableEq α] (l : List (α × β)) (k k1 : α) (v : β) :
    alookup (ainsert l k v) k1 = if k1 = k then some v else alookup l k1 := by
  induction l with
  | nil =>
      simp only [ainsert, alookup]
      rcases eq_or_ne k1 k with h | h
      · subst h; simp
      · simp [h, Ne.symm h]
  | cons hd tl ih =>
      obtain ⟨k2, v2⟩ := hd
      simp only [ainsert]
      rcases eq_or_ne k2 k with h2 | h2
      · subst h2
        simp only [if_pos rfl, alookup]
        rcases eq_or_ne k1 k2 with h | h
        · subst h; simp
        · simp [h, Ne.symm h]
      · rw [if_neg h2]
        simp only [alookup]
        rcases eq_or_ne k2 k1 with h | h
        · subst h
          rw [if_pos rfl, if_pos rfl, if_neg h2]
        · rw [if_neg h, ih]
          rcases eq_or_ne k1 k with h4 | h4
          · rw [if_pos h4, if_pos h4]
          · rw [if_neg h4, if_neg h4, if_neg h]

theorem alookup_ainsert_self {α β : Type} [DecidableEq α] (l : List (α × β)) (k : α) (v : β) :
    alookup (ainsert l k v) k = some v := by
  rw [alookup_ainsert, if_pos rfl]

theorem alookup_ainsert_ne {α β : Type} [DecidableEq α] (l : List (α × β)) (k k1 : α) (v : β)
    (h : k1 ≠ k) : alookup (ainsert l k v) k1 = alookup l k1 := by
  rw [alookup_ainsert, if_neg h]

theorem alookup_aerase_ne {α β : Type} [DecidableEq α] (l : List (α × β)) (k k1 : α)
    (h : k1 ≠ k) : alookup (aerase l k) k1 = alookup l k1 := by
  induction l with
  | nil => rfl
  | cons hd tl ih =>
      obtain ⟨k2, v2⟩ := hd
      simp only [aerase]
      rcases eq_or_ne k2 k with h2 | h2
      · subst h2
        rw [if_pos rfl]
        simp only [alookup]
        rw [if_neg (fun hh : k2 = k1 => h (hh.symm))]
      · rw [if_neg h2]
        simp only [alookup]
        rcases eq_or_ne k2 k1 with h3 | h3
        · rw [if_pos h3, if_pos h3]
        · rw [if_neg h3, if_neg h3, ih]

theorem alookup_eq_none_of_not_mem {α β : Type} [DecidableEq α] (l : List (α × β)) (k : α)
    (h : k ∉ l.map Prod.fst) : alookup l k = none := by
  induction l with
  | nil => rfl
  | cons hd tl ih =>
      obtain ⟨k2, v2⟩ := hd
      simp only [List.map_cons, List.mem_cons] at h
      push_neg at h
      simp only [alookup]
      rw [if_neg (fun hh : k2 = k => h.1 hh.symm)]
      exact ih h.2

theorem alookup_aerase_self {α β : Type} [DecidableEq α] (l : List (α × β)) (k : α)
    (h : keysNodup l) : alookup (aerase l k) k = none := by
  induction l with
  | nil => rfl
  | cons hd tl ih =>
      obtain ⟨k2, v2⟩ := hd
      simp only [keysNodup, List.map_cons, List.nodup_cons] at h
      simp only [aerase]
      rcases eq_or_ne k2 k with h2 | h2
      · subst h2
        rw [if_pos rfl]
        exact alookup_eq_none_of_not_mem tl k2 h.1
      · rw [if_neg h2]
        simp only [alookup]
        rw [if_neg h2]
        exact ih h.2

theorem alookup_mem {α β : Type} [DecidableEq α] (l : List (α × β)) (k : α) (v : β)
    (h : alookup l k = some v) : (k, v) ∈ l := by
  induction l with
  | nil => exact absurd h (by simp [alookup])
  | cons hd tl ih =>
      obtain ⟨k2, v2⟩ := hd
      simp only [alookup] at h
      rcases eq_or_ne k2 k with h2 | h2
      · subst h2
        rw [if_pos rfl] at h
        cases h
        exact List.mem_cons_self _ _
      · rw [if_neg h2] at h
        exact List.mem_cons_of_mem _ (ih h)

theorem mem_ainsert {α β : Type} [DecidableEq α] (l : List (α × β)) (k : α) (v : β)
    (e : α × β) (h : e ∈ ainsert l k v) : e = (k, v) ∨ e ∈ l := by
  induction l with
  | nil =>
      simp only [ainsert, List.mem_singleton] at h
      exact Or.inl h
  | cons hd tl ih =>
      obtain ⟨k2, v2⟩ := hd
      simp only [ainsert] at h
      rcases eq_or_ne k2 k with h2 | h2
      · rw [if_pos h2] at h
        rcases List.mem_cons.mp h with h3 | h3
        · exact Or.inl h3
        · exact Or.inr (List.mem_cons_of_mem _ h3)
      · rw [if_neg h2] at h
        rcases List.mem_cons.mp h with h3 | h3
        · exact Or.inr (h3 ▸ List.mem_cons_self _ _)
        · rcases ih h3 with h4 | h4
          · exact Or.inl h4
          · exact Or.inr (List.mem_cons_of_mem _ h4)

theorem ainsert_keys_of_lookup {α β : Type} [DecidableEq α] (l : List (α × β)) (k : α)
    (v v0 : β) (h : alookup l k = some v0) :
    (ainsert l k v).map Prod.fst = l.map Prod.fst := by
  induction l with
  | nil => exact absurd h (by simp [alookup])
  | cons hd tl ih =>
      obtain ⟨k2, v2⟩ := hd
      simp only [alookup] at h
      simp only [ainsert]
      rcases eq_or_ne k2 k with h2 | h2
      · subst h2
        rw [if_pos rfl]
        simp
      · rw [if_neg h2] at h
        rw [if_neg h2]
        simp only [List.map_cons]
        rw [ih h]

theorem keysNodup_ainsert {α β : Type} [DecidableEq α] (l : List (α × β)) (k : α) (v : β)
    (h : keysNodup l) : keysNodup (ainsert l k v) := by
  induction l with
  | nil => simp [ainsert, keysNodup]
  | cons hd tl ih =>
      obtain ⟨k2, v2⟩ := hd
      simp only [keysNodup, List.map_cons, List.nodup_cons] at h
      simp only [ainsert]
      rcases eq_or_ne k2 k with h2 | h2
      · subst h2
        rw [if_pos rfl]
        simpa [keysNodup] using h
      · rw [if_neg h2]
        simp only [keysNodup, List.map_cons, List.nodup_cons]
        constructor
        · intro hmem
          rcases List.mem_map.mp hmem with ⟨e, he, hfst⟩
          rcases mem_ainsert tl k v e he with h3 | h3
          · exact h2 (by rw [h3] at hfst; exact hfst.symm)
          · exact h.1 (List.mem_map.mpr ⟨e, h3, hfst⟩)
        · exact ih h.2

theorem mem_aerase {α β : Type} [DecidableEq α] (l : List (α × β)) (k : α)
    (e : α × β) (h : e ∈ aerase l k) : e ∈ l := by
  induction l with
  | nil => exact absurd h (by simp [aerase])
  | cons hd tl ih =>
      obtain ⟨k2, v2⟩ := hd
      simp only [aerase] at h
      rcases eq_or_ne k2 k with h2 | h2
      · rw [if_pos h2] at h
        exact List.mem_cons_of_mem _ h
      · rw [if_neg h2] at h
        rcases List.mem_cons.mp h with h3 | h3
        · exact h3 ▸ List.mem_cons_self _ _
        · exact List.mem_cons_of_mem _ (ih h3)

theorem keysNodup_aerase {α β : Type} [DecidableEq α] (l : List (α × β)) (k : α)
    (h : keysNodup l) : keysNodup (aerase l k) := by
  induction l with
  | nil => exact h
  | cons hd tl ih =>
      obtain ⟨k2, v2⟩ := hd
      simp only [keysNodup, List.map_cons, List.nodup_cons] at h
      simp only [aerase]
      rcases eq_or_ne k2 k with h2 | h2
      · rw [if_pos h2]
        exact h.2
      · rw [if_neg h2]
        simp only [keysNodup, List.map_cons, List.nodup_cons]
        constructor
        · intro hmem
          rcases List.mem_map.mp hmem with ⟨e, he, hfst⟩
          exact h.1 (List.mem_map.mpr ⟨e, mem_aerase tl k e he, hfst⟩)
        · exact ih h.2

/-! ### Database lemmas -/

theorem getUserById_some_id (db : List DbUser) (userId : Nat) (d : DbUser)
    (h : getUserById db userId = some d) : d.id = userId := by
  have := List.find?_some h
  simpa using this

theorem getUserById_update (db : List DbUser) (userId userId2 : Nat) (p : Int) :
    getUserById (updateUserPoints db userId p) userId2 =
      (getUserById db userId2).map
        (fun d => if d.id = userId then { d with points := p } else d) := by
  induction db with
  | nil => rfl
  | cons hd tl ih =>
      simp only [updateUserPoints, List.map_cons, getUserById, List.find?]
      rcases eq_or_ne hd.id userId2 with h2 | h2
      · have hid : (if hd.id = userId then { hd with points := p } else hd).id = hd.id := by
          rcases eq_or_ne hd.id userId with h3 | h3
          · rw [if_pos h3]
          · rw [if_neg h3]
        rw [hid]
        simp [h2]
      · have hid : (if hd.id = userId then { hd with points := p } else hd).id = hd.id := by
          rcases eq_or_ne hd.id userId with h3 | h3
          · rw [if_pos h3]
          · rw [if_neg h3]
        rw [hid]
        simp only [decide_eq_true_eq, h2, decide_eq_false h2, cond_false]
        simpa [updateUserPoints, getUserById] using ih

theorem getUserById_update_ne (db : List DbUser) (userId userId2 : Nat) (p : Int)
    (h : userId2 ≠ userId) :
    getUserById (updateUserPoints db userId p) userId2 = getUserById db userId2 := by
  rw [getUserById_update]
  cases hfind : getUserById db userId2 with
  | none => rfl
  | some d =>
      have hid := getUserById_some_id db userId2 d hfind
      simp [hid, h]

theorem getUserPoints_update_ne (db : List DbUser) (userId userId2 : Nat) (p : Int)
    (h : userId2 ≠ userId) :
    getUserPoints (updateUserPoints db userId p) userId2 = getUserPoints db userId2 := by
  unfold getUserPoints
  rw [getUserById_update_ne db userId userId2 p h]

theorem getUserPoints_update_self (db : List DbUser) (userId : Nat) (p : Int)
    (h : (getUserById db userId).isSome) :
    getUserPoints (updateUserPoints db userId p) userId = p := by
  unfold getUserPoints
  rw [getUserById_update]
  cases hfind : getUserById db userId with
  | none => rw [hfind] at h; exact absurd h (by simp)
  | some d =>
      have hid := getUserById_some_id db userId d hfind
      simp [hid]

theorem getUserById_update_isSome (db : List DbUser) (userId userId2 : Nat) (p : Int)
    (h : (getUserById db userId2).isSome) :
    (getUserById (updateUserPoints db userId p) userId2).isSome := by
  rw [getUserById_update]
  cases hfind : getUserById db userId2 with
  | none => rw [hfind] at h; exact absurd h (by simp)
  | some d => simp

theorem getUserById_isSome_of_points_pos (db : List DbUser) (userId : Nat)
    (h : 0 < getUserPoints db userId) : (getUserById db userId).isSome := by
  unfold getUserPoints at h
  cases hfind : getUserById db userId with
  | none => rw [hfind] at h; exact absurd h (by simp)
  | some d => simp

/-- The refresh pattern is the plain overwrite with the ledger value. -/
theorem refreshUser_eq (db : List DbUser) (u : OnlineUser) :
    refreshUser db u = { u with points := getUserPoints db u.userId } := by
  unfold refreshUser
  rcases eq_or_ne (getUserPoints db u.userId) u.points with h | h
  · rw [if_neg (by simpa using h)]
    cases u
    simp only at h
    simp [h]
  · rw [if_pos (by simpa using h)]

/-! ### Game-resolver lemmas -/

theorem beats_ne (c1 c2 : RPSChoice) (h : beats c1 c2 = true) : c1 ≠ c2 := by
  cases c1 <;> cases c2 <;> simp_all [beats]

theorem resolver_win_eq (p1 p2 : String) (c1 c2 : RPSChoice) (bet : Int)
    (hne : p1 ≠ p2) (hb : beats c1 c2 = true) :
    calculateRPSResult p1 c1 p2 c2 bet =
      ⟨some p1, some p2, false, [(p1, bet), (p2, -bet)]⟩ := by
  unfold calculateRPSResult
  rw [if_neg (beats_ne c1 c2 hb), if_pos hb]
  simp [ainsert, hne]

theorem resolver_lose_eq (p1 p2 : String) (c1 c2 : RPSChoice) (bet : Int)
    (hne : p1 ≠ p2) (hcc : c1 ≠ c2) (hb : beats c1 c2 = false) :
    calculateRPSResult p1 c1 p2 c2 bet =
      ⟨some p2, some p1, false, [(p2, bet), (p1, -bet)]⟩ := by
  unfold calculateRPSResult
  rw [if_neg hcc, if_neg (by simp [hb])]
  simp [ainsert, Ne.symm hne]

theorem resolver_draw_eq (p1 p2 : String) (c1 c2 : RPSChoice) (bet : Int)
    (hne : p1 ≠ p2) (hcc : c1 = c2) :
    calculateRPSResult p1 c1 p2 c2 bet = ⟨none, none, true, [(p1, 0), (p2, 0)]⟩ := by
  unfold calculateRPSResult
  rw [if_pos hcc]
  simp [ainsert, hne]

/-- C7: For every pair of moves and every stake, the resolver's settlement
outcome is zero-sum: with distinct participants, differing moves give the
winner delta `+stake` and the loser delta `-stake` (summing to 0), and
equal moves give a draw with both deltas 0. -/
theorem resolver_zero_sum (p1 p2 : String) (c1 c2 : RPSChoice) (bet : Int)
    (hne : p1 ≠ p2) :
    ((alookup (calculateRPSResult p1 c1 p2 c2 bet).pointsChange p1).getD 0 +
      (alookup (calculateRPSResult p1 c1 p2 c2 bet).pointsChange p2).getD 0 = 0) ∧
    (c1 = c2 → (calculateRPSResult p1 c1 p2 c2 bet).isDraw = true ∧
      alookup (calculateRPSResult p1 c1 p2 c2 bet).pointsChange p1 = some 0 ∧
      alookup (calculateRPSResult p1 c1 p2 c2 bet).pointsChange p2 = some 0) ∧
    (c1 ≠ c2 → (calculateRPSResult p1 c1 p2 c2 bet).isDraw = false ∧
      ∃ w l, (calculateRPSResult p1 c1 p2 c2 bet).winnerId = some w ∧
        (calculateRPSResult p1 c1 p2 c2 bet).loserId = some l ∧
        alookup (calculateRPSResult p1 c1 p2 c2 bet).pointsChange w = some bet ∧
        alookup (calculateRPSResult p1 c1 p2 c2 bet).pointsChange l = some (-bet)) := by
  have hne2 : p2 ≠ p1 := Ne.symm hne
  rcases eq_or_ne c1 c2 with hcc | hcc
  · rw [resolver_draw_eq p1 p2 c1 c2 bet hne hcc]
    refine ⟨?_, fun _ => ⟨rfl, ?_, ?_⟩, fun h => absurd hcc h⟩
    · simp [alookup, hne, hne2]
    · simp [alookup]
    · simp [alookup, hne, hne2]
  · cases hb : beats c1 c2
    · rw [resolver_lose_eq p1 p2 c1 c2 bet hne hcc hb]
      refine ⟨?_, fun h => absurd h hcc, fun _ => ⟨rfl, p2, p1, rfl, rfl, ?_, ?_⟩⟩
      · simp [alookup, hne, hne2]
      · simp [alookup]
      · simp [alookup, hne, hne2]
    · rw [resolver_win_eq p1 p2 c1 c2 bet hne hb]
      refine ⟨?_, fun h => absurd h hcc, fun _ => ⟨rfl, p1, p2, rfl, rfl, ?_, ?_⟩⟩
      · simp [alookup, hne, hne2]
      · simp [alookup]
      · simp [alookup, hne, hne2]

/-- Witness for C7 at a concrete decisive round. -/
theorem resolver_zero_sum_witness :
    ("x" : String) ≠ "y" ∧
    (alookup (calculateRPSResult "x" RPSChoice.rock "y" RPSChoice.scissors 100).pointsChange "x").getD 0 +
      (alookup (calculateRPSResult "x" RPSChoice.rock "y" RPSChoice.scissors 100).pointsChange "y").getD 0 = 0 :=
  ⟨by decide, (resolver_zero_sum "x" "y" RPSChoice.rock RPSChoice.scissors 100 (by decide)).1⟩

/-- C3: `create_room` with a refreshed balance below the fixed 100-point
stake rejects with the insufficient-funds error and creates no room (the
rooms table is untouched; only the requester's cached balance is synced to
the ledger value). -/
theorem createRoom_rejects_insufficient (st : ServerState) (sid : String)
    (gt : GameType) (rid : String) (u : OnlineUser)
    (hu : alookup st.onlineUsers sid = some u)
    (hpts : getUserPoints st.db u.userId < 100) :
    (applyEvent st (Event.createRoom sid gt rid)).1.rooms = st.rooms ∧
    (applyEvent st (Event.createRoom sid gt rid)).2 =
      [Emit.errorMsg ErrKind.insufficientPoints] := by
  have hbet : (if gt = GameType.rps then (100 : Int) else 100) = 100 := by
    cases gt <;> rfl
  simp only [applyEvent, handleCreateRoom, hu, refreshUser_eq, hbet]
  rw [if_pos hpts]
  exact ⟨rfl, rfl⟩

/-- Witness for C3: the spec's balance-50 scenario is rejected with no
room created. -/
theorem createRoom_rejects_insufficient_witness :
    (applyEvent stPoor (Event.createRoom "sA" GameType.rps "r1")).1.rooms = stPoor.rooms ∧
    (applyEvent stPoor (Event.createRoom "sA" GameType.rps "r1")).2 =
      [Emit.errorMsg ErrKind.insufficientPoints] :=
  createRoom_rejects_insufficient stPoor "sA" GameType.rps "r1"
    ⟨"sA", 1, "a", "A", 50⟩ (by decide) (by decide)

/-- C10: the disconnect path is idempotent.  After one disconnect of a
socket, a second disconnect of the same socket changes nothing and emits
nothing (the hypothesis is the `Map` representation invariant that keys
are unique). -/
theorem disconnect_idempotent (st : ServerState) (sid : String)
    (hnd : keysNodup st.onlineUsers) :
    applyEvent (applyEvent st (Event.disconnect sid)).1 (Event.disconnect sid) =
      ((applyEvent st (Event.disconnect sid)).1, []) := by
  simp only [applyEvent, handleDisconnect]
  cases hu : alookup st.onlineUsers sid with
  | none => simp [hu]
  | some u =>
      have h2 : alookup (aerase st.onlineUsers sid) sid = none :=
        alookup_aerase_self _ _ hnd
      simp [hu, h2]

/-- Witness for C10 on a concrete mid-game state. -/
theorem disconnect_idempotent_witness :
    applyEvent (applyEvent stFinished (Event.disconnect "sA")).1 (Event.disconnect "sA") =
      ((applyEvent stFinished (Event.disconnect "sA")).1, []) :=
  disconnect_idempotent stFinished "sA" (by decide)

/-- C2 fails on the code: `join_room` never checks whether the joiner is
already a member of some room.  After the event run of `stTwoRooms`,
connection `sA` is simultaneously a member of its own room `r1` and of
B's room `r2` — the one-connection-one-room invariant does not hold and
no explicit check enforces it. -/
theorem join_while_hosting_spans_two_rooms :
    (alookup stTwoRooms.rooms "r1").map (fun r => r.players.contains "sA") = some true ∧
    (alookup stTwoRooms.rooms "r2").map (fun r => r.players.contains "sA") = some true := by
  decide

/-- C5 fails on the code: the disconnect cleanup removes the departing
socket from `players` but never deletes its `gameData` entry.  After the
`stVanish` run the surviving room `r1` has pending move keys that are not
a subset of its members. -/
theorem disconnect_leaves_stale_pending_move :
    (alookup stVanish.rooms "r1").map
        (fun r => decide (∀ e ∈ r.gameData, e.1 ∈ r.players)) = some false := by
  decide

/-! ### Settlement characterization -/

theorem rpsChoice_settles (st : ServerState) (rid p1 p2 : String)
    (c1 c2 : RPSChoice) (room : Room) (u1 u2 : OnlineUser)
    (hroom : alookup st.rooms rid = some room)
    (hgt : room.gameType = GameType.rps)
    (hplayers : room.players = [p1, p2])
    (hne : p1 ≠ p2)
    (hstale : alookup room.gameData p2 = some c2)
    (hu1 : alookup st.onlineUsers p1 = some u1)
    (hu2 : alookup st.onlineUsers p2 = some u2)
    (hbeats : beats c1 c2 = true) :
    applyEvent st (Event.rpsChoice p1 rid c1) =
      ({ db := updateUserPoints
               (updateUserPoints st.db u1.userId (u1.points + room.betAmount))
               u2.userId (u2.points + -room.betAmount),
         onlineUsers :=
           ainsert (ainsert st.onlineUsers p1 { u1 with points := u1.points + room.betAmount })
             p2 { u2 with points := u2.points + -room.betAmount },
         rooms :=
           ainsert (ainsert st.rooms rid { room with gameData := ainsert room.gameData p1 c1 })
             rid { room with gameData := ainsert room.gameData p1 c1,
                             status := RoomStatus.finished },
         emailToSocketId := st.emailToSocketId },
       [Emit.gameResult rid
          ⟨some p1, some p2, false, [(p1, room.betAmount), (p2, -room.betAmount)]⟩]) := by
  have hne2 : p2 ≠ p1 := Ne.symm hne
  have hmem : p1 ∈ room.players := by
    rw [hplayers]; exact List.mem_cons_self _ _
  have hgd2 : alookup (ainsert room.gameData p1 c1) p2 = some c2 := by
    rw [alookup_ainsert_ne _ _ _ _ hne2, hstale]
  simp only [applyEvent, handleRpsChoice, hroom, hgt, hplayers, hmem,
    ne_eq, not_true_eq_false, if_false, not_false_eq_true, if_true,
    alookup_ainsert_self, hgd2, hu1, hu2,
    resolver_win_eq p1 p2 c1 c2 room.betAmount hne hbeats,
    applySettlement, List.foldl_cons, List.foldl_nil]
  simp only [alookup_ainsert_ne _ _ _ _ hne2, hu1, hu2]
  simp [Bool.false_eq_true, if_false]

/-- C4: after a decisive settlement marks a room finished, the move handler
still accepts a move from a member (it has no status check), and because
the previous round's `gameData` was not cleared, the single new move
triggers another settlement against the opponent's stale recorded move,
transferring the stake again in both cached balances and the ledger. -/
theorem finished_room_accepts_move_and_resettles (st : ServerState)
    (rid p1 p2 : String) (c1 c2 : RPSChoice) (room : Room) (u1 u2 : OnlineUser)
    (hroom : alookup st.rooms rid = some room)
    (hgt : room.gameType = GameType.rps)
    (hstatus : room.status = RoomStatus.finished)
    (hplayers : room.players = [p1, p2])
    (hne : p1 ≠ p2)
    (hstale : alookup room.gameData p2 = some c2)
    (hu1 : alookup st.onlineUsers p1 = some u1)
    (hu2 : alookup st.onlineUsers p2 = some u2)
    (huid : u1.userId ≠ u2.userId)
    (hd1 : (getUserById st.db u1.userId).isSome)
    (hd2 : (getUserById st.db u2.userId).isSome)
    (hbeats : beats c1 c2 = true) :
    (applyEvent st (Event.rpsChoice p1 rid c1)).2 =
      [Emit.gameResult rid
        ⟨some p1, some p2, false, [(p1, room.betAmount), (p2, -room.betAmount)]⟩] ∧
    getUserPoints (applyEvent st (Event.rpsChoice p1 rid c1)).1.db u1.userId =
      u1.points + room.betAmount ∧
    getUserPoints (applyEvent st (Event.rpsChoice p1 rid c1)).1.db u2.userId =
      u2.points - room.betAmount ∧
    (alookup (applyEvent st (Event.rpsChoice p1 rid c1)).1.onlineUsers p1).map
        (fun u => u.points) = some (u1.points + room.betAmount) ∧
    (alookup (applyEvent st (Event.rpsChoice p1 rid c1)).1.onlineUsers p2).map
        (fun u => u.points) = some (u2.points - room.betAmount) := by
  rw [rpsChoice_settles st rid p1 p2 c1 c2 room u1 u2 hroom hgt hplayers hne hstale hu1 hu2 hbeats]
  have hne2 : p2 ≠ p1 := Ne.symm hne
  have huid2 : u2.userId ≠ u1.userId := Ne.symm huid
  refine ⟨rfl, ?_, ?_, ?_, ?_⟩
  · rw [getUserPoints_update_ne _ _ _ _ huid]
    exact getUserPoints_update_self _ _ _ hd1
  · rw [getUserPoints_update_self]
    · exact sub_eq_add_neg u2.points room.betAmount |>.symm ▸ rfl
    · rw [getUserById_update_ne _ _ _ _ huid2]
      exact hd2
  · rw [alookup_ainsert_ne _ _ _ _ hne, alookup_ainsert_self]
    rfl
  · rw [alookup_ainsert_self]
    simp [sub_eq_add_neg]

/-- Witness for C4: in the finished room of `stFinished` (A already won
100 once), a single new rock from A settles again against B's stale
scissors, moving A to 1200 and B to 800. -/
theorem finished_room_accepts_move_and_resettles_witness :
    (applyEvent stFinished (Event.rpsChoice "sA" "r1" RPSChoice.rock)).2 =
      [Emit.gameResult "r1"
        ⟨some "sA", some "sB", false, [("sA", 100), ("sB", -100)]⟩] ∧
    getUserPoints (applyEvent stFinished (Event.rpsChoice "sA" "r1" RPSChoice.rock)).1.db 1 =
      1100 + 100 ∧
    getUserPoints (applyEvent stFinished (Event.rpsChoice "sA" "r1" RPSChoice.rock)).1.db 2 =
      900 - 100 ∧
    (alookup (applyEvent stFinished (Event.rpsChoice "sA" "r1" RPSChoice.rock)).1.onlineUsers "sA").map
        (fun u => u.points) = some (1100 + 100) ∧
    (alookup (applyEvent stFinished (Event.rpsChoice "sA" "r1" RPSChoice.rock)).1.onlineUsers "sB").map
        (fun u => u.points) = some (900 - 100) :=
  finished_room_accepts_move_and_resettles stFinished "r1" "sA" "sB"
    RPSChoice.rock RPSChoice.scissors
    ⟨"r1", GameType.rps, "sA", ["sA", "sB"], RoomStatus.finished, 100,
      [("sA", RPSChoice.rock), ("sB", RPSChoice.scissors)]⟩
    ⟨"sA", 1, "a", "A", 1100⟩ ⟨"sB", 2, "b", "B", 900⟩
    (by decide) (by decide) (by decide) (by decide) (by decide) (by decide)
    (by decide) (by decide) (by decide) (by decide) (by decide) (by decide)

/-- C1 as stated is false for the settlement path: at `stStaleLedger` the
durable balance of account 1 is 500 while the session cache holds 1000;
the settlement triggered by A's winning move credits the stake onto the
cached value and writes 1100 to the ledger, not the 600 that acting on the
ledger's current value would give.  No refresh happens in the settlement. -/
theorem settlement_skips_refresh_cx :
    getUserPoints stStaleLedger.db 1 = 500 ∧
    getUserPoints
      (applyEvent stStaleLedger (Event.rpsChoice "sA" "r1" RPSChoice.rock)).1.db 1 = 1100 ∧
    (1100 : Int) ≠ 500 + 100 := by
  decide

/-- C1 amended: create room, join room, and transfer refresh the cached
balance from the ledger immediately before their checks — the value each
check acts on is exactly the ledger's current value — but the settlement
performed when both moves are in does not refresh: it adds the stake delta
to the in-memory cached balance and writes that result back to the
ledger. -/
theorem balance_refresh_discipline :
    (∀ st sid gt rid u, alookup st.onlineUsers sid = some u →
      ((applyEvent st (Event.createRoom sid gt rid)).2 =
          [Emit.errorMsg ErrKind.insufficientPoints] ↔
        getUserPoints st.db u.userId < 100)) ∧
    (∀ st sid rid u room, alookup st.onlineUsers sid = some u →
      alookup st.rooms rid = some room → room.players.length < 2 →
      room.status = RoomStatus.waiting →
      ((applyEvent st (Event.joinRoom sid rid)).2 =
          [Emit.errorMsg ErrKind.insufficientPoints] ↔
        getUserPoints st.db u.userId < room.betAmount)) ∧
    (∀ st sid email amt u, alookup st.onlineUsers sid = some u → 0 < amt →
      ((applyEvent st (Event.transferPoints sid email amt)).2 =
          [Emit.errorMsg ErrKind.insufficientPoints] ↔
        getUserPoints st.db u.userId < amt)) ∧
    (∀ st rid p1 p2 c1 c2 room u1 u2,
      alookup st.rooms rid = some room → room.gameType = GameType.rps →
      room.players = [p1, p2] → p1 ≠ p2 →
      alookup room.gameData p2 = some c2 →
      alookup st.onlineUsers p1 = some u1 → alookup st.onlineUsers p2 = some u2 →
      u1.userId ≠ u2.userId →
      (getUserById st.db u1.userId).isSome → (getUserById st.db u2.userId).isSome →
      beats c1 c2 = true →
      getUserPoints (applyEvent st (Event.rpsChoice p1 rid c1)).1.db u1.userId =
        u1.points + room.betAmount ∧
      getUserPoints (applyEvent st (Event.rpsChoice p1 rid c1)).1.db u2.userId =
        u2.points - room.betAmount) := by
  refine ⟨?_, ?_, ?_, ?_⟩
  · intro st sid gt rid u hu
    have hbet : (if gt = GameType.rps then (100 : Int) else 100) = 100 := by
      cases gt <;> rfl
    simp only [applyEvent, handleCreateRoom, hu, refreshUser_eq, hbet]
    by_cases hlt : getUserPoints st.db u.userId < 100
    · rw [if_pos hlt]
      simp [hlt]
    · rw [if_neg hlt]
      simp [hlt]
  · intro st sid rid u room hu hroom hlen hstatus
    have hnotfull : ¬ room.players.length ≥ 2 := by omega
    simp only [applyEvent, handleJoinRoom, hu, refreshUser_eq, hroom]
    rw [if_neg hnotfull, if_neg (by simp [hstatus])]
    by_cases hlt : getUserPoints st.db u.userId < room.betAmount
    · rw [if_pos hlt]
      simp [hlt]
    · rw [if_neg hlt]
      split <;> simp [hlt]
  · intro st sid email amt u hu hamt
    simp only [applyEvent, handleTransfer, hu, refreshUser_eq]
    rw [if_neg (by omega : ¬ amt ≤ 0)]
    by_cases hlt : getUserPoints st.db u.userId < amt
    · rw [if_pos hlt]
      simp [hlt]
    · rw [if_neg hlt]
      rcases h1 : alookup st.emailToSocketId email with _ | tsid
      · simp [h1, hlt]
      · simp only [h1]
        rcases h2 : alookup (ainsert st.onlineUsers sid
            { u with points := getUserPoints st.db u.userId }) tsid with _ | target
        · simp [h2, hlt]
        · simp [h2, hlt]
  · intro st rid p1 p2 c1 c2 room u1 u2 hroom hgt hplayers hne hstale hu1 hu2 huid hd1 hd2 hbeats
    rw [rpsChoice_settles st rid p1 p2 c1 c2 room u1 u2 hroom hgt hplayers hne hstale hu1 hu2 hbeats]
    have huid2 : u2.userId ≠ u1.userId := Ne.symm huid
    constructor
    · rw [getUserPoints_update_ne _ _ _ _ huid]
      exact getUserPoints_update_self _ _ _ hd1
    · rw [getUserPoints_update_self]
      · rw [sub_eq_add_neg]
      · rw [getUserById_update_ne _ _ _ _ huid2]
        exact hd2

/-- Witness for the amended C1: the balance-50 creator is rejected because
the ledger value is below the stake, and at `stStaleLedger` the settlement
result is cached-plus-stake (1000 + 100), not ledger-plus-stake. -/
theorem balance_refresh_discipline_witness :
    (applyEvent stPoor (Event.createRoom "sA" GameType.rps "r1")).2 =
      [Emit.errorMsg ErrKind.insufficientPoints] ∧
    getUserPoints
      (applyEvent stStaleLedger (Event.rpsChoice "sA" "r1" RPSChoice.rock)).1.db 1 =
      1000 + 100 :=
  ⟨(balance_refresh_discipline.1 stPoor "sA" GameType.rps "r1"
      ⟨"sA", 1, "a", "A", 50⟩ (by decide)).mpr (by decide),
   (balance_refresh_discipline.2.2.2 stStaleLedger "r1" "sA" "sB"
      RPSChoice.rock RPSChoice.scissors
      ⟨"r1", GameType.rps, "sA", ["sA", "sB"], RoomStatus.playing, 100,
        [("sB", RPSChoice.scissors)]⟩
      ⟨"sA", 1, "a", "A", 1000⟩ ⟨"sB", 2, "b", "B", 1000⟩
      (by decide) (by decide) (by decide) (by decide) (by decide) (by decide)
      (by decide) (by decide) (by decide) (by decide) (by decide)).1⟩

/-- C6 as stated is false on two counts.  First, a transfer whose target
email resolves to the sender's own session does not debit and credit two
parties: at `stSelfTransfer`, account 1 transfers 100 to its own email and
ends with 1100 cached and 1100 durable — the balance sum grows by the
amount (both new values are computed from the same object before either
assignment, and the credit assignment overwrites the debit).  Second, a
failing transfer is not free of balance changes: at `stStaleTransfer` the
insufficient-funds rejection has already overwritten the sender's cached
balance 1000 with the refreshed ledger value 40. -/
theorem transfer_claim_cx :
    ((alookup (applyEvent stSelfTransfer (Event.transferPoints "sA" "a" 100)).1.onlineUsers
        "sA").map (fun u => u.points) = some 1100 ∧
      getUserPoints (applyEvent stSelfTransfer (Event.transferPoints "sA" "a" 100)).1.db 1 =
        1100) ∧
    ((applyEvent stStaleTransfer (Event.transferPoints "sA" "b" 100)).2 =
        [Emit.errorMsg ErrKind.insufficientPoints] ∧
      (alookup (applyEvent stStaleTransfer (Event.transferPoints "sA" "b" 100)).1.onlineUsers
        "sA").map (fun u => u.points) = some 40) := by
  decide

/-- C6 amended: transfer fails with InvalidAmount when the amount is not
positive (changing nothing), with InsufficientFunds when the sender's
refreshed ledger balance is below the amount, and with a recipient error
when the target email has no live session — every failure leaves the
ledger unchanged, though the refresh may overwrite cached balances with
the ledger's current values.  On success with a recipient session distinct
from the sender, the sender's refreshed balance drops by exactly the
amount and the recipient's rises by exactly the amount in both ledger and
caches, the two parties' ledger sum is unchanged, and both parties are
notified followed by the global roster rebroadcast.  A transfer addressed
to the sender's own email instead raises the sender's balance by the
amount. -/
theorem transfer_behaviour (st : ServerState) (sid email : String) (amt : Int)
    (sender : OnlineUser) (hs : alookup st.onlineUsers sid = some sender) :
    (amt ≤ 0 →
      applyEvent st (Event.transferPoints sid email amt) =
        (st, [Emit.errorMsg ErrKind.invalidAmount])) ∧
    (0 < amt → getUserPoints st.db sender.userId < amt →
      (applyEvent st (Event.transferPoints sid email amt)).1.db = st.db ∧
      (applyEvent st (Event.transferPoints sid email amt)).2 =
        [Emit.errorMsg ErrKind.insufficientPoints] ∧
      alookup (applyEvent st (Event.transferPoints sid email amt)).1.onlineUsers sid =
        some { sender with points := getUserPoints st.db sender.userId }) ∧
    (0 < amt → ¬ getUserPoints st.db sender.userId < amt →
      alookup st.emailToSocketId email = none →
      (applyEvent st (Event.transferPoints sid email amt)).1.db = st.db ∧
      (applyEvent st (Event.transferPoints sid email amt)).2 =
        [Emit.errorMsg ErrKind.targetNotFound]) ∧
    (∀ tsid, 0 < amt → ¬ getUserPoints st.db sender.userId < amt →
      alookup st.emailToSocketId email = some tsid → tsid ≠ sid →
      alookup st.onlineUsers tsid = none →
      (applyEvent st (Event.transferPoints sid email amt)).1.db = st.db ∧
      (applyEvent st (Event.transferPoints sid email amt)).2 =
        [Emit.errorMsg ErrKind.targetOffline]) ∧
    (∀ tsid target, 0 < amt → ¬ getUserPoints st.db sender.userId < amt →
      alookup st.emailToSocketId email = some tsid → tsid ≠ sid →
      alookup st.onlineUsers tsid = some target →
      sender.userId ≠ target.userId →
      (getUserById st.db target.userId).isSome →
      getUserPoints (applyEvent st (Event.transferPoints sid email amt)).1.db sender.userId =
        getUserPoints st.db sender.userId - amt ∧
      getUserPoints (applyEvent st (Event.transferPoints sid email amt)).1.db target.userId =
        getUserPoints st.db target.userId + amt ∧
      (alookup (applyEvent st (Event.transferPoints sid email amt)).1.onlineUsers sid).map
          (fun u => u.points) = some (getUserPoints st.db sender.userId - amt) ∧
      (alookup (applyEvent st (Event.transferPoints sid email amt)).1.onlineUsers tsid).map
          (fun u => u.points) = some (getUserPoints st.db target.userId + amt) ∧
      getUserPoints (applyEvent st (Event.transferPoints sid email amt)).1.db sender.userId +
        getUserPoints (applyEvent st (Event.transferPoints sid email amt)).1.db target.userId =
        getUserPoints st.db sender.userId + getUserPoints st.db target.userId ∧
      (applyEvent st (Event.transferPoints sid email amt)).2 =
        [Emit.transferSuccess (getUserPoints st.db sender.userId - amt),
         Emit.pointsReceived (getUserPoints st.db target.userId + amt),
         Emit.onlineUsersUpdated]) ∧
    (0 < amt → ¬ getUserPoints st.db sender.userId < amt →
      alookup st.emailToSocketId email = some sid →
      getUserPoints (applyEvent st (Event.transferPoints sid email amt)).1.db sender.userId =
        getUserPoints st.db sender.userId + amt ∧
      (alookup (applyEvent st (Event.transferPoints sid email amt)).1.onlineUsers sid).map
          (fun u => u.points) = some (getUserPoints st.db sender.userId + amt)) := by
  refine ⟨?_, ?_, ?_, ?_, ?_, ?_⟩
  · intro hle
    simp only [applyEvent, handleTransfer, hs]
    rw [if_pos hle]
  · intro hamt hlt
    simp only [applyEvent, handleTransfer, hs, refreshUser_eq]
    rw [if_neg (by omega : ¬ amt ≤ 0), if_pos hlt]
    exact ⟨rfl, rfl, alookup_ainsert_self _ _ _⟩
  · intro hamt hge hnone
    simp only [applyEvent, handleTransfer, hs, refreshUser_eq]
    rw [if_neg (by omega : ¬ amt ≤ 0), if_neg hge]
    simp [hnone]
  · intro tsid hamt hge hemail htne hnone
    simp only [applyEvent, handleTransfer, hs, refreshUser_eq]
    rw [if_neg (by omega : ¬ amt ≤ 0), if_neg hge]
    simp only [hemail]
    rw [alookup_ainsert_ne _ _ _ _ htne, hnone]
    exact ⟨rfl, rfl⟩
  · intro tsid target hamt hge hemail htne htarget huidne hdt
    have hLSpos : 0 < getUserPoints st.db sender.userId := by omega
    have hds : (getUserById st.db sender.userId).isSome :=
      getUserById_isSome_of_points_pos _ _ hLSpos
    have huidne2 : target.userId ≠ sender.userId := Ne.symm huidne
    have hsne : sid ≠ tsid := Ne.symm htne
    simp only [applyEvent, handleTransfer, hs, refreshUser_eq]
    rw [if_neg (by omega : ¬ amt ≤ 0), if_neg hge]
    simp only [hemail]
    rw [alookup_ainsert_ne _ _ _ _ htne, htarget]
    simp only [refreshUser_eq]
    refine ⟨?_, ?_, ?_, ?_, ?_, ?_⟩
    · rw [getUserPoints_update_ne _ _ _ _ huidne]
      exact getUserPoints_update_self _ _ _ hds
    · rw [getUserPoints_update_self]
      · rw [getUserById_update_ne _ _ _ _ huidne2]
        exact hdt
    · rw [alookup_ainsert_ne _ _ _ _ hsne, alookup_ainsert_self]
      rfl
    · rw [alookup_ainsert_self]
      rfl
    · rw [getUserPoints_update_ne _ _ _ _ huidne, getUserPoints_update_self _ _ _ hds,
        getUserPoints_update_self]
      · ring
      · rw [getUserById_update_ne _ _ _ _ huidne2]
        exact hdt
    · rw [if_neg htne]
  · intro hamt hge hself
    have hLSpos : 0 < getUserPoints st.db sender.userId := by omega
    have hds : (getUserById st.db sender.userId).isSome :=
      getUserById_isSome_of_points_pos _ _ hLSpos
    simp only [applyEvent, handleTransfer, hs, refreshUser_eq]
    rw [if_neg (by omega : ¬ amt ≤ 0), if_neg hge]
    simp only [hself]
    rw [alookup_ainsert_self]
    simp only [refreshUser_eq]
    constructor
    · rw [getUserPoints_update_self]
      · exact getUserById_update_isSome _ _ _ _ hds
    · rw [alookup_ainsert_self]
      rfl

/-- Witness for the amended C6: the concrete distinct-party success at
`stPair` debits A and credits B exactly, notifying both and rebroadcasting
the roster. -/
theorem transfer_behaviour_witness :
    getUserPoints (applyEvent stPair (Event.transferPoints "sA" "b" 100)).1.db 1 =
      getUserPoints stPair.db 1 - 100 ∧
    getUserPoints (applyEvent stPair (Event.transferPoints "sA" "b" 100)).1.db 2 =
      getUserPoints stPair.db 2 + 100 ∧
    (applyEvent stPair (Event.transferPoints "sA" "b" 100)).2 =
      [Emit.transferSuccess (getUserPoints stPair.db 1 - 100),
       Emit.pointsReceived (getUserPoints stPair.db 2 + 100),
       Emit.onlineUsersUpdated] :=
  have h := (transfer_behaviour stPair "sA" "b" 100 ⟨"sA", 1, "a", "A", 1000⟩
      (by decide)).2.2.2.2.1 "sB" ⟨"sB", 2, "b", "B", 1000⟩
      (by decide) (by decide) (by decide) (by decide) (by decide) (by decide) (by decide)
  ⟨h.1, h.2.1, h.2.2.2.2.2⟩


/-! ### Room-capacity invariant -/

theorem handleLogin_rooms (st : ServerState) (sid : String) (uid : Nat) (email : String) :
    (handleLogin st sid uid email).1.rooms = st.rooms := by
  cases hd : getUserById st.db uid with
  | none => simp [handleLogin, hd]
  | some d =>
      simp only [handleLogin, hd]
      by_cases h1 : (alookup st.emailToSocketId email).isSome
      · rw [if_pos h1]
      · rw [if_neg h1]
        by_cases h2 : st.onlineUsers.length ≥ maxOnlineUsers
        · rw [if_pos h2]
        · rw [if_neg h2]

theorem applySettlement_rooms (pc : List (String × Int)) (st : ServerState) :
    (applySettlement st pc).rooms = st.rooms := by
  induction pc generalizing st with
  | nil => rfl
  | cons kv rest ih =>
      simp only [applySettlement, List.foldl_cons] at ih ⊢
      cases alookup st.onlineUsers kv.1 with
      | none => rw [ih]
      | some player => rw [ih]

theorem handleTransfer_rooms (st : ServerState) (sid email : String) (amt : Int) :
    (handleTransfer st sid email amt).1.rooms = st.rooms := by
  cases hs : alookup st.onlineUsers sid with
  | none => simp [handleTransfer, hs]
  | some sender =>
      simp only [handleTransfer, hs]
      by_cases h0 : amt ≤ 0
      · rw [if_pos h0]
      · rw [if_neg h0]
        by_cases h1 : (refreshUser st.db sender).points < amt
        · rw [if_pos h1]
        · rw [if_neg h1]
          cases h2 : alookup st.emailToSocketId email with
          | none => simp [h2]
          | some tsid =>
              simp only [h2]
              cases h3 : alookup (ainsert st.onlineUsers sid (refreshUser st.db sender)) tsid with
              | none => simp [h3]
              | some target => simp [h3]

example (st : ServerState) (sid : String) (gt : GameType) (rid : String)
    (h : RoomInv st) : RoomInv (applyEvent st (Event.createRoom sid gt rid)).1 := by
  intro e he
  cases hu : alookup st.onlineUsers sid with
  | none =>
      simp only [applyEvent, handleCreateRoom, hu] at he
      exact h e he
  | some u =>
      simp only [applyEvent, handleCreateRoom, hu] at he
      rw [show (if gt = GameType.rps then (100 : Int) else 100) = 100 from by cases gt <;> rfl] at he
      by_cases hc : (refreshUser st.db u).points < 100
      · rw [if_pos hc] at he
        exact h e he
      · rw [if_neg hc] at he
        rcases mem_ainsert _ _ _ _ he with h1 | h1
        · rw [h1]
          simp
        · exact h e h1

theorem roomInv_step (st : ServerState) (ev : Event) (h : RoomInv st) :
    RoomInv (applyEvent st ev).1 := by
  cases ev with
  | login sid uid email =>
      intro e he
      rw [show (applyEvent st (Event.login sid uid email)).1 =
            (handleLogin st sid uid email).1 from rfl, handleLogin_rooms] at he
      exact h e he
  | createRoom sid gt rid =>
      intro e he
      cases hu : alookup st.onlineUsers sid with
      | none =>
          simp only [applyEvent, handleCreateRoom, hu] at he
          exact h e he
      | some u =>
          simp only [applyEvent, handleCreateRoom, hu] at he
          rw [show (if gt = GameType.rps then (100 : Int) else 100) = 100 from
            by cases gt <;> rfl] at he
          by_cases hc : (refreshUser st.db u).points < 100
          · rw [if_pos hc] at he
            exact h e he
          · rw [if_neg hc] at he
            rcases mem_ainsert _ _ _ _ he with h1 | h1
            · rw [h1]
              simp
            · exact h e h1
  | joinRoom sid rid =>
      intro e he
      cases hu : alookup st.onlineUsers sid with
      | none =>
          simp only [applyEvent, handleJoinRoom, hu] at he
          exact h e he
      | some u =>
          cases hr : alookup st.rooms rid with
          | none =>
              simp only [applyEvent, handleJoinRoom, hu, hr] at he
              exact h e he
          | some room =>
              simp only [applyEvent, handleJoinRoom, hu, hr] at he
              by_cases hful : room.players.length ≥ 2
              · rw [if_pos hful] at he
                exact h e he
              · rw [if_neg hful] at he
                by_cases hst : room.status ≠ RoomStatus.waiting
                · rw [if_pos hst] at he
                  exact h e he
                · rw [if_neg hst] at he
                  by_cases hpts : (refreshUser st.db u).points < room.betAmount
                  · rw [if_pos hpts] at he
                    exact h e he
                  · rw [if_neg hpts] at he
                    by_cases hlen2 : (room.players ++ [sid]).length = 2
                    · rw [if_pos hlen2] at he
                      rcases mem_ainsert _ _ _ _ he with h1 | h1
                      · rw [h1]
                        simpa using le_of_eq hlen2
                      · exact h e h1
                    · rw [if_neg hlen2] at he
                      rcases mem_ainsert _ _ _ _ he with h1 | h1
                      · rw [h1]
                        simp only [List.length_append, List.length_singleton]
                        omega
                      · exact h e h1
  | rpsChoice sid rid choice =>
      intro e he
      cases hr : alookup st.rooms rid with
      | none =>
          simp only [applyEvent, handleRpsChoice, hr] at he
          exact h e he
      | some room =>
          have hroomlen : (rid, room).2.players.length ≤ 2 :=
            h (rid, room) (alookup_mem _ _ _ hr)
          simp only at hroomlen
          simp only [applyEvent, handleRpsChoice, hr] at he
          by_cases hgt : room.gameType ≠ GameType.rps
          · rw [if_pos hgt] at he
            exact h e he
          · rw [if_neg hgt] at he
            by_cases hmem : sid ∉ room.players
            · rw [if_pos hmem] at he
              exact h e he
            · rw [if_neg hmem] at he
              cases hp : room.players with
              | nil =>
                  simp only [hp] at he
                  rcases mem_ainsert _ _ _ _ he with h1 | h1
                  · rw [h1]; simp
                  · exact h e h1
              | cons p1 tail =>
                  cases htl : tail with
                  | nil =>
                      simp only [hp, htl] at he
                      rcases mem_ainsert _ _ _ _ he with h1 | h1
                      · rw [h1]; simp
                      · exact h e h1
                  | cons p2 rest =>
                      simp only [hp, htl] at he
                      have hlen3 : (p1 :: p2 :: rest).length ≤ 2 := by
                        rw [← htl, ← hp]; exact hroomlen
                      cases hg1 : alookup (ainsert room.gameData sid choice) p1 with
                      | none =>
                          simp only [hg1] at he
                          rcases mem_ainsert _ _ _ _ he with h1 | h1
                          · rw [h1]; simpa using hlen3
                          · exact h e h1
                      | some c1 =>
                          cases hg2 : alookup (ainsert room.gameData sid choice) p2 with
                          | none =>
                              simp only [hg1, hg2] at he
                              rcases mem_ainsert _ _ _ _ he with h1 | h1
                              · rw [h1]; simpa using hlen3
                              · exact h e h1
                          | some c2 =>
                              simp only [hg1, hg2] at he
                              cases ho1 : alookup st.onlineUsers p1 with
                              | none =>
                                  simp only [ho1] at he
                                  rcases mem_ainsert _ _ _ _ he with h1 | h1
                                  · rw [h1]; simpa using hlen3
                                  · exact h e h1
                              | some u1 =>
                                  cases ho2 : alookup st.onlineUsers p2 with
                                  | none =>
                                      simp only [ho1, ho2] at he
                                      rcases mem_ainsert _ _ _ _ he with h1 | h1
                                      · rw [h1]; simpa using hlen3
                                      · exact h e h1
                                  | some u2 =>
                                      simp only [ho1, ho2] at he
                                      by_cases hdr :
                                        (calculateRPSResult p1 c1 p2 c2 room.betAmount).isDraw = true
                                      · rw [if_pos hdr, applySettlement_rooms] at he
                                        rcases mem_ainsert _ _ _ _ he with h1 | h1
                                        · rw [h1]; simpa using hlen3
                                        · rcases mem_ainsert _ _ _ _ h1 with h2 | h2
                                          · rw [h2]; simpa using hlen3
                                          · exact h e h2
                                      · rw [if_neg hdr, applySettlement_rooms] at he
                                        rcases mem_ainsert _ _ _ _ he with h1 | h1
                                        · rw [h1]; simpa using hlen3
                                        · rcases mem_ainsert _ _ _ _ h1 with h2 | h2
                                          · rw [h2]; simpa using hlen3
                                          · exact h e h2
  | transferPoints sid email amt =>
      intro e he
      rw [show (applyEvent st (Event.transferPoints sid email amt)).1 =
            (handleTransfer st sid email amt).1 from rfl, handleTransfer_rooms] at he
      exact h e he
  | disconnect sid =>
      intro e he
      cases hu : alookup st.onlineUsers sid with
      | none =>
          simp only [applyEvent, handleDisconnect, hu] at he
          exact h e he
      | some u =>
          simp only [applyEvent, handleDisconnect, hu] at he
          revert he
          have hgen : ∀ (l : List (String × Room)) (acc : List (String × Room) × List Emit),
              (∀ e2 ∈ acc.1, e2.2.players.length ≤ 2) →
              (∀ e2 ∈ l, e2.2.players.length ≤ 2) →
              ∀ e2 ∈ (l.foldl (disconnectRoomStep sid) acc).1, e2.2.players.length ≤ 2 := by
            intro l
            induction l with
            | nil => intro acc hacc _ e2 he2; exact hacc e2 he2
            | cons hd tl ih =>
                intro acc hacc hl
                simp only [List.foldl_cons]
                apply ih
                · intro e2 he2
                  simp only [disconnectRoomStep] at he2
                  by_cases hin : sid ∈ hd.2.players
                  · rw [if_pos hin] at he2
                    by_cases hz : (hd.2.players.filter (fun pid => pid ≠ sid)).length = 0
                    · rw [if_pos hz] at he2
                      exact hacc e2 he2
                    · rw [if_neg hz] at he2
                      rcases List.mem_append.mp he2 with h1 | h1
                      · exact hacc e2 h1
                      · simp only [List.mem_singleton] at h1
                        rw [h1]
                        calc (hd.2.players.filter (fun pid => pid ≠ sid)).length
                            ≤ hd.2.players.length := List.length_filter_le _ _
                          _ ≤ 2 := hl hd (List.mem_cons_self _ _)
                  · rw [if_neg hin] at he2
                    rcases List.mem_append.mp he2 with h1 | h1
                    · exact hacc e2 h1
                    · simp only [List.mem_singleton] at h1
                      rw [h1]
                      exact hl hd (List.mem_cons_self _ _)
                · intro e2 he2
                  exact hl e2 (List.mem_cons_of_mem _ he2)
          intro he
          exact hgen st.rooms ([], []) (by intro e2 he2; exact absurd he2 (by simp)) h e he

theorem roomInv_reach (P : ServerState → Event → Bool) (db0 : List DbUser)
    (st : ServerState) (h : ReachVia P db0 st) : RoomInv st := by
  induction h with
  | init => intro e he; exact absurd he (by simp [initState])
  | step st2 ev hre hP ih => exact roomInv_step st2 ev ih

theorem room_capacity :
    (∀ (P : ServerState → Event → Bool) (db0 : List DbUser) (st : ServerState),
      ReachVia P db0 st → ∀ rid room, alookup st.rooms rid = some room →
        room.players.length ≤ 2) ∧
    (∀ st sid rid u room, alookup st.onlineUsers sid = some u →
      alookup st.rooms rid = some room → room.players.length = 2 →
      (applyEvent st (Event.joinRoom sid rid)).1.rooms = st.rooms ∧
      (applyEvent st (Event.joinRoom sid rid)).2 = [Emit.errorMsg ErrKind.roomFull]) := by
  constructor
  · intro P db0 st hreach rid room hroom
    exact roomInv_reach P db0 st hreach (rid, room) (alookup_mem _ _ _ hroom)
  · intro st sid rid u room hu hroom hlen
    simp only [applyEvent, handleJoinRoom, hu, hroom]
    rw [if_pos (by omega : room.players.length ≥ 2)]
    exact ⟨rfl, rfl⟩

theorem stFull_reachable : ReachVia (fun _ _ => true) dbDemo stFull :=
  ReachVia.step _ _ (ReachVia.step _ _ (ReachVia.step _ _ (ReachVia.step _ _
    (ReachVia.step _ _ ReachVia.init rfl) rfl) rfl) rfl) rfl

theorem room_capacity_witness :
    (⟨"r1", GameType.rps, "sA", ["sA", "sB"], RoomStatus.playing, 100, []⟩ : Room).players.length ≤ 2 ∧
    (applyEvent stFull (Event.joinRoom "sC" "r1")).1.rooms = stFull.rooms ∧
    (applyEvent stFull (Event.joinRoom "sC" "r1")).2 = [Emit.errorMsg ErrKind.roomFull] :=
  ⟨room_capacity.1 (fun _ _ => true) dbDemo stFull stFull_reachable "r1"
      ⟨"r1", GameType.rps, "sA", ["sA", "sB"], RoomStatus.playing, 100, []⟩ (by decide),
   (room_capacity.2 stFull "sC" "r1" ⟨"sC", 3, "c", "C", 1000⟩
      ⟨"r1", GameType.rps, "sA", ["sA", "sB"], RoomStatus.playing, 100, []⟩
      (by decide) (by decide) (by decide)).1,
   (room_capacity.2 stFull "sC" "r1" ⟨"sC", 3, "c", "C", 1000⟩
      ⟨"r1", GameType.rps, "sA", ["sA", "sB"], RoomStatus.playing, 100, []⟩
      (by decide) (by decide) (by decide)).2⟩

/-! ### Session-registry invariant -/

theorem shape_refl (st : ServerState) : SameUsersShape st st :=
  ⟨rfl, fun _ => rfl, rfl, fun _ => rfl⟩

theorem shape_trans (a b c : ServerState) (h1 : SameUsersShape a b)
    (h2 : SameUsersShape b c) : SameUsersShape a c :=
  ⟨h2.1.trans h1.1, fun s => (h2.2.1 s).trans (h1.2.1 s),
   h2.2.2.1.trans h1.2.2.1, fun uid => (h2.2.2.2 uid).trans (h1.2.2.2 uid)⟩

theorem dbEmails_update (db : List DbUser) (uid : Nat) (p : Int) (uid2 : Nat) :
    (getUserById (updateUserPoints db uid p) uid2).map (fun d => d.email) =
    (getUserById db uid2).map (fun d => d.email) := by
  rw [getUserById_update]
  cases h : getUserById db uid2 with
  | none => rfl
  | some d =>
      rcases eq_or_ne d.id uid with h2 | h2 <;> simp [h2]

theorem lookupShape_ainsert (l : List (String × OnlineUser)) (k : String)
    (v w : OnlineUser) (hl : alookup l k = some w) (hew : v.email = w.email)
    (hiw : v.userId = w.userId) (s : String) :
    (alookup (ainsert l k v) s).map (fun u => (u.email, u.userId)) =
    (alookup l s).map (fun u => (u.email, u.userId)) := by
  rw [alookup_ainsert]
  rcases eq_or_ne s k with h | h
  · subst h
    rw [if_pos rfl, hl]
    simp [hew, hiw]
  · rw [if_neg h]

theorem shape_users_ainsert (st : ServerState) (k : String) (v w : OnlineUser)
    (hl : alookup st.onlineUsers k = some w) (hew : v.email = w.email)
    (hiw : v.userId = w.userId) :
    SameUsersShape st { st with onlineUsers := ainsert st.onlineUsers k v } :=
  ⟨ainsert_keys_of_lookup _ _ _ _ hl, lookupShape_ainsert _ _ _ _ hl hew hiw,
   rfl, fun _ => rfl⟩

theorem shape_set_rooms (st : ServerState) (r : List (String × Room)) :
    SameUsersShape st { st with rooms := r } :=
  ⟨rfl, fun _ => rfl, rfl, fun _ => rfl⟩

theorem refreshUser_email (db : List DbUser) (u : OnlineUser) :
    (refreshUser db u).email = u.email := by
  rw [refreshUser_eq]

theorem refreshUser_userId (db : List DbUser) (u : OnlineUser) :
    (refreshUser db u).userId = u.userId := by
  rw [refreshUser_eq]

theorem shape_sessionInv (st st1 : ServerState) (hsh : SameUsersShape st st1)
    (hInv : SessionInv st) : SessionInv st1 := by
  obtain ⟨hkeys, hlk, hmap, hdbe⟩ := hsh
  obtain ⟨hnd, huniq, hidx, hdb⟩ := hInv
  have hget : ∀ s u1, alookup st1.onlineUsers s = some u1 →
      ∃ w, alookup st.onlineUsers s = some w ∧ w.email = u1.email ∧ w.userId = u1.userId := by
    intro s u1 h1
    have := hlk s
    rw [h1] at this
    rcases Option.map_eq_some'.mp this.symm with ⟨w, hw, hfw⟩
    exact ⟨w, hw, (Prod.mk.injEq _ _ _ _ |>.mp hfw).1, (Prod.mk.injEq _ _ _ _ |>.mp hfw).2⟩
  refine ⟨?_, ?_, ?_, ?_⟩
  · unfold keysNodup at hnd ⊢
    rw [hkeys]
    exact hnd
  · intro s1 s2 u1 u2 h1 h2 hee
    obtain ⟨w1, hw1, hew1, hiw1⟩ := hget s1 u1 h1
    obtain ⟨w2, hw2, hew2, hiw2⟩ := hget s2 u2 h2
    exact huniq s1 s2 w1 w2 hw1 hw2 (by rw [hew1, hew2, hee])
  · intro s u1 h1
    obtain ⟨w, hw, hew, hiw⟩ := hget s u1 h1
    rw [hmap, ← hew]
    exact hidx s w hw
  · intro s u1 h1
    obtain ⟨w, hw, hew, hiw⟩ := hget s u1 h1
    obtain ⟨d, hd, hde⟩ := hdb s w hw
    have h2 := hdbe u1.userId
    rw [← hiw] at h2
    rw [hd] at h2
    simp only [Option.map_some'] at h2
    rcases Option.map_eq_some'.mp h2 with ⟨d1, hd1, hde1⟩
    refine ⟨d1, ?_, ?_⟩
    · rw [hiw] at hd1
      exact hd1
    · rw [hde1, hde, hew]

theorem shape_handleCreateRoom (st : ServerState) (sid : String) (gt : GameType)
    (rid : String) : SameUsersShape st (handleCreateRoom st sid gt rid).1 := by
  cases hu : alookup st.onlineUsers sid with
  | none =>
      simp only [handleCreateRoom, hu]
      exact shape_refl st
  | some u =>
      simp only [handleCreateRoom, hu]
      have hbase : SameUsersShape st
          { st with onlineUsers := ainsert st.onlineUsers sid (refreshUser st.db u) } :=
        shape_users_ainsert st sid _ u hu (refreshUser_email _ _) (refreshUser_userId _ _)
      rw [show (if gt = GameType.rps then (100 : Int) else 100) = 100 from
        by cases gt <;> rfl]
      by_cases hc : (refreshUser st.db u).points < 100
      · rw [if_pos hc]
        exact hbase
      · rw [if_neg hc]
        exact hbase

theorem shape_handleJoinRoom (st : ServerState) (sid rid : String) :
    SameUsersShape st (handleJoinRoom st sid rid).1 := by
  cases hu : alookup st.onlineUsers sid with
  | none =>
      simp only [handleJoinRoom, hu]
      exact shape_refl st
  | some u =>
      have hbase : SameUsersShape st
          { st with onlineUsers := ainsert st.onlineUsers sid (refreshUser st.db u) } :=
        shape_users_ainsert st sid _ u hu (refreshUser_email _ _) (refreshUser_userId _ _)
      cases hr : alookup st.rooms rid with
      | none =>
          simp only [handleJoinRoom, hu, hr]
          exact hbase
      | some room =>
          simp only [handleJoinRoom, hu, hr]
          by_cases hful : room.players.length ≥ 2
          · rw [if_pos hful]; exact hbase
          · rw [if_neg hful]
            by_cases hst : room.status ≠ RoomStatus.waiting
            · rw [if_pos hst]; exact hbase
            · rw [if_neg hst]
              by_cases hpts : (refreshUser st.db u).points < room.betAmount
              · rw [if_pos hpts]; exact hbase
              · rw [if_neg hpts]
                by_cases hlen2 : (room.players ++ [sid]).length = 2
                · rw [if_pos hlen2]; exact hbase
                · rw [if_neg hlen2]; exact hbase

theorem shape_applySettlement (pc : List (String × Int)) (st : ServerState) :
    SameUsersShape st (applySettlement st pc) := by
  induction pc generalizing st with
  | nil => exact shape_refl st
  | cons kv rest ih =>
      simp only [applySettlement, List.foldl_cons] at ih ⊢
      cases hl : alookup st.onlineUsers kv.1 with
      | none =>
          simp only [hl]
          exact ih st
      | some player =>
          simp only [hl]
          refine shape_trans _ _ _ ?_ (ih _)
          refine ⟨?_, ?_, rfl, ?_⟩
          · exact ainsert_keys_of_lookup _ _ _ _ hl
          · exact lookupShape_ainsert _ _ _ player hl rfl rfl
          · intro uid
            exact dbEmails_update _ _ _ _

theorem shape_handleRpsChoice (st : ServerState) (sid rid : String)
    (choice : RPSChoice) : SameUsersShape st (handleRpsChoice st sid rid choice).1 := by
  cases hr : alookup st.rooms rid with
  | none =>
      simp only [handleRpsChoice, hr]
      exact shape_refl st
  | some room =>
      simp only [handleRpsChoice, hr]
      by_cases hgt : room.gameType ≠ GameType.rps
      · rw [if_pos hgt]; exact shape_refl st
      · rw [if_neg hgt]
        by_cases hmem : sid ∉ room.players
        · rw [if_pos hmem]; exact shape_refl st
        · rw [if_neg hmem]
          cases hp : room.players with
          | nil => simp only [hp]; exact shape_set_rooms st _
          | cons p1 tail =>
              cases htl : tail with
              | nil => simp only [hp, htl]; exact shape_set_rooms st _
              | cons p2 rest =>
                  simp only [hp, htl]
                  cases hg1 : alookup (ainsert room.gameData sid choice) p1 with
                  | none => simp only [hg1]; exact shape_set_rooms st _
                  | some c1 =>
                      cases hg2 : alookup (ainsert room.gameData sid choice) p2 with
                      | none => simp only [hg1, hg2]; exact shape_set_rooms st _
                      | some c2 =>
                          simp only [hg1, hg2]
                          cases ho1 : alookup st.onlineUsers p1 with
                          | none => simp only [ho1]; exact shape_set_rooms st _
                          | some u1 =>
                              cases ho2 : alookup st.onlineUsers p2 with
                              | none => simp only [ho1, ho2]; exact shape_set_rooms st _
                              | some u2 =>
                                  simp only [ho1, ho2]
                                  by_cases hdr :
                                      (calculateRPSResult p1 c1 p2 c2 room.betAmount).isDraw = true
                                  · rw [if_pos hdr]
                                    exact shape_trans _ _ _ (shape_set_rooms st _)
                                      (shape_trans _ _ _ (shape_applySettlement _ _)
                                        (shape_set_rooms _ _))
                                  · rw [if_neg hdr]
                                    exact shape_trans _ _ _ (shape_set_rooms st _)
                                      (shape_trans _ _ _ (shape_applySettlement _ _)
                                        (shape_set_rooms _ _))

theorem shape_handleTransfer (st : ServerState) (sid email : String) (amt : Int) :
    SameUsersShape st (handleTransfer st sid email amt).1 := by
  cases hs : alookup st.onlineUsers sid with
  | none =>
      simp only [handleTransfer, hs]
      exact shape_refl st
  | some sender =>
      simp only [handleTransfer, hs]
      by_cases h0 : amt ≤ 0
      · rw [if_pos h0]; exact shape_refl st
      · rw [if_neg h0]
        have hbase := shape_users_ainsert st sid (refreshUser st.db sender) sender hs
          (refreshUser_email _ _) (refreshUser_userId _ _)
        by_cases h1 : (refreshUser st.db sender).points < amt
        · rw [if_pos h1]; exact hbase
        · rw [if_neg h1]
          cases h2 : alookup st.emailToSocketId email with
          | none => simp only [h2]; exact hbase
          | some tsid =>
              simp only [h2]
              cases h3 : alookup (ainsert st.onlineUsers sid (refreshUser st.db sender)) tsid with
              | none => simp only [h3]; exact hbase
              | some target =>
                  simp only [h3]
                  set sr : OnlineUser := refreshUser st.db sender with hsr
                  set st1 : ServerState :=
                    { st with onlineUsers := ainsert st.onlineUsers sid sr } with hst1
                  set tr : OnlineUser := refreshUser st1.db target with htr
                  have hstep2 := shape_users_ainsert st1 tsid tr target h3
                    (refreshUser_email _ _) (refreshUser_userId _ _)
                  set st2 : ServerState :=
                    { st1 with onlineUsers := ainsert st1.onlineUsers tsid tr } with hst2
                  have hlk2 : ∃ w : OnlineUser, alookup st2.onlineUsers sid = some w ∧
                      w.email = sr.email ∧ w.userId = sr.userId := by
                    rcases eq_or_ne tsid sid with hts | hts
                    · subst hts
                      have heq : target = sr := by
                        have h4 : alookup st1.onlineUsers tsid = some sr :=
                          alookup_ainsert_self _ _ _
                        rw [h3] at h4
                        exact Option.some_inj.mp h4
                      refine ⟨tr, alookup_ainsert_self _ _ _, ?_, ?_⟩
                      · simp [htr, hsr, heq, refreshUser_eq]
                      · simp [htr, hsr, heq, refreshUser_eq]
                    · exact ⟨sr, by
                        rw [alookup_ainsert_ne _ _ _ _ (Ne.symm hts)]
                        exact alookup_ainsert_self _ _ _, rfl, rfl⟩
                  obtain ⟨w2, hw2, hew2, hiw2⟩ := hlk2
                  set v2 : OnlineUser := { sr with points := sr.points - amt } with hv2
                  have hstep3 := shape_users_ainsert st2 sid v2 w2 hw2 hew2.symm hiw2.symm
                  set st2a : ServerState :=
                    { st2 with onlineUsers := ainsert st2.onlineUsers sid v2 } with hst2a
                  have hlk3 : ∃ w : OnlineUser, alookup st2a.onlineUsers tsid = some w ∧
                      w.email = tr.email ∧ w.userId = tr.userId := by
                    rcases eq_or_ne tsid sid with hts | hts
                    · subst hts
                      have heq : target = sr := by
                        have h4 : alookup st1.onlineUsers tsid = some sr :=
                          alookup_ainsert_self _ _ _
                        rw [h3] at h4
                        exact Option.some_inj.mp h4
                      refine ⟨v2, alookup_ainsert_self _ _ _, ?_, ?_⟩
                      · simp [hv2, htr, hsr, heq, refreshUser_eq]
                      · simp [hv2, htr, hsr, heq, refreshUser_eq]
                    · exact ⟨tr, by
                        rw [alookup_ainsert_ne _ _ _ _ hts]
                        exact alookup_ainsert_self _ _ _, rfl, rfl⟩
                  obtain ⟨w3, hw3, hew3, hiw3⟩ := hlk3
                  set v3 : OnlineUser := { tr with points := tr.points + amt } with hv3
                  have hstep4 := shape_users_ainsert st2a tsid v3 w3 hw3 hew3.symm hiw3.symm
                  refine shape_trans _ _ _ hbase (shape_trans _ _ _ hstep2
                    (shape_trans _ _ _ hstep3 (shape_trans _ _ _ hstep4 ?_)))
                  refine ⟨rfl, fun _ => rfl, rfl, ?_⟩
                  intro uid
                  rw [dbEmails_update, dbEmails_update]

theorem sessionInv_login (st : ServerState) (sid : String) (uid : Nat) (email : String)
    (hInv : SessionInv st) (hok : okEvent st (Event.login sid uid email) = true) :
    SessionInv (handleLogin st sid uid email).1 := by
  cases hd : getUserById st.db uid with
  | none =>
      simp only [handleLogin, hd]
      exact hInv
  | some dbUser =>
      have hemail : dbUser.email = email := by
        simp only [okEvent, hd] at hok
        exact of_decide_eq_true hok
      obtain ⟨hnd, huniq, hidx, hdb⟩ := hInv
      simp only [handleLogin, hd]
      by_cases hdup : (alookup st.emailToSocketId email).isSome
      · rw [if_pos hdup]
        exact ⟨hnd, huniq, hidx, hdb⟩
      · rw [if_neg hdup]
        by_cases hcap : st.onlineUsers.length ≥ maxOnlineUsers
        · rw [if_pos hcap]
          exact ⟨hnd, huniq, hidx, hdb⟩
        · rw [if_neg hcap]
          refine ⟨keysNodup_ainsert _ _ _ hnd, ?_, ?_, ?_⟩
          · intro s1 s2 u1 u2 h1 h2 hee
            rw [alookup_ainsert] at h1 h2
            rcases eq_or_ne s1 sid with hs1 | hs1
            · rcases eq_or_ne s2 sid with hs2 | hs2
              · rw [hs1, hs2]
              · rw [if_pos hs1] at h1
                rw [if_neg hs2] at h2
                cases h1
                exfalso
                apply hdup
                have := hidx s2 u2 h2
                rw [← hee] at this
                simp only at this
                rw [hemail] at this
                exact this
            · rcases eq_or_ne s2 sid with hs2 | hs2
              · rw [if_neg hs1] at h1
                rw [if_pos hs2] at h2
                cases h2
                exfalso
                apply hdup
                have := hidx s1 u1 h1
                rw [hee] at this
                simp only at this
                rw [hemail] at this
                exact this
              · rw [if_neg hs1] at h1
                rw [if_neg hs2] at h2
                exact huniq s1 s2 u1 u2 h1 h2 hee
          · intro s u1 h1
            rw [alookup_ainsert] at h1
            rcases eq_or_ne s sid with hs | hs
            · rw [if_pos hs] at h1
              cases h1
              simp only
              rw [hemail, alookup_ainsert_self]
              rfl
            · rw [if_neg hs] at h1
              rw [alookup_ainsert]
              rcases eq_or_ne u1.email email with he2 | he2
              · rw [if_pos he2]
                rfl
              · rw [if_neg he2]
                exact hidx s u1 h1
          · intro s u1 h1
            rw [alookup_ainsert] at h1
            rcases eq_or_ne s sid with hs | hs
            · rw [if_pos hs] at h1
              cases h1
              refine ⟨dbUser, ?_, rfl⟩
              simp only
              have hid := getUserById_some_id st.db uid dbUser hd
              rw [hid]
              exact hd
            · rw [if_neg hs] at h1
              exact hdb s u1 h1

theorem sessionInv_disconnect (st : ServerState) (sid : String)
    (hInv : SessionInv st) : SessionInv (handleDisconnect st sid).1 := by
  cases hu : alookup st.onlineUsers sid with
  | none =>
      simp only [handleDisconnect, hu]
      exact hInv
  | some u =>
      obtain ⟨hnd, huniq, hidx, hdb⟩ := hInv
      simp only [handleDisconnect, hu]
      have haccess : ∀ s u1, alookup (aerase st.onlineUsers sid) s = some u1 →
          s ≠ sid ∧ alookup st.onlineUsers s = some u1 := by
        intro s u1 h1
        rcases eq_or_ne s sid with hs | hs
        · subst hs
          rw [alookup_aerase_self _ _ hnd] at h1
          cases h1
        · exact ⟨hs, by rw [alookup_aerase_ne _ _ _ hs] at h1; exact h1⟩
      refine ⟨keysNodup_aerase _ _ hnd, ?_, ?_, ?_⟩
      · intro s1 s2 u1 u2 h1 h2 hee
        obtain ⟨hs1, h1b⟩ := haccess s1 u1 h1
        obtain ⟨hs2, h2b⟩ := haccess s2 u2 h2
        exact huniq s1 s2 u1 u2 h1b h2b hee
      · intro s u1 h1
        obtain ⟨hs, h1b⟩ := haccess s u1 h1
        have hne : u1.email ≠ u.email := by
          intro hcontra
          exact hs (huniq s sid u1 u h1b hu hcontra)
        rw [alookup_aerase_ne _ _ _ hne]
        exact hidx s u1 h1b
      · intro s u1 h1
        obtain ⟨hs, h1b⟩ := haccess s u1 h1
        exact hdb s u1 h1b

theorem sessionInv_step (st : ServerState) (ev : Event) (hInv : SessionInv st)
    (hok : okEvent st ev = true) : SessionInv (applyEvent st ev).1 := by
  cases ev with
  | login sid uid email => exact sessionInv_login st sid uid email hInv hok
  | createRoom sid gt rid =>
      exact shape_sessionInv st _ (shape_handleCreateRoom st sid gt rid) hInv
  | joinRoom sid rid =>
      exact shape_sessionInv st _ (shape_handleJoinRoom st sid rid) hInv
  | rpsChoice sid rid choice =>
      exact shape_sessionInv st _ (shape_handleRpsChoice st sid rid choice) hInv
  | transferPoints sid email amt =>
      exact shape_sessionInv st _ (shape_handleTransfer st sid email amt) hInv
  | disconnect sid => exact sessionInv_disconnect st sid hInv

theorem sessionInv_reach (db0 : List DbUser) (st : ServerState)
    (h : ReachVia okEvent db0 st) : SessionInv st := by
  induction h with
  | init =>
      refine ⟨by simp [keysNodup, initState], ?_, ?_, ?_⟩
      · intro s1 s2 u1 u2 h1
        exact absurd h1 (by simp [initState, alookup])
      · intro s u1 h1
        exact absurd h1 (by simp [initState, alookup])
      · intro s u1 h1
        exact absurd h1 (by simp [initState, alookup])
  | step st2 ev hre hok ih => exact sessionInv_step st2 ev ih hok

/-- C8: in every state reachable under the spec's verified-identity
assumption (login payload emails match the account's stored email), at
most one live session exists per account id, and a second login naming an
account that already has a live session is rejected with the
already-online error, leaving the session registry and the email index
(the whole state) unchanged. -/
theorem single_session_per_account (db0 : List DbUser) (st : ServerState)
    (hreach : ReachVia okEvent db0 st) :
    (∀ s1 s2 u1 u2, alookup st.onlineUsers s1 = some u1 →
      alookup st.onlineUsers s2 = some u2 → u1.userId = u2.userId → s1 = s2) ∧
    (∀ sid uid email d s0 u0, alookup st.onlineUsers s0 = some u0 → u0.userId = uid →
      getUserById st.db uid = some d → email = d.email →
      applyEvent st (Event.login sid uid email) =
        (st, [Emit.loginError LoginErr.alreadyOnline])) := by
  obtain ⟨hnd, huniq, hidx, hdb⟩ := sessionInv_reach db0 st hreach
  constructor
  · intro s1 s2 u1 u2 h1 h2 hid
    obtain ⟨d1, hd1, he1⟩ := hdb s1 u1 h1
    obtain ⟨d2, hd2, he2⟩ := hdb s2 u2 h2
    rw [hid] at hd1
    rw [hd1] at hd2
    have hd12 : d1 = d2 := Option.some_inj.mp hd2
    exact huniq s1 s2 u1 u2 h1 h2 (by rw [← he1, ← he2, hd12])
  · intro sid uid email d s0 u0 h0 huid hd hemail
    obtain ⟨d0, hd0, he0⟩ := hdb s0 u0 h0
    rw [huid, hd] at hd0
    have hd0d : d = d0 := Option.some_inj.mp hd0
    have hmail0 : u0.email = email := by
      rw [hemail, hd0d, he0]
    have hsome : (alookup st.emailToSocketId email).isSome := by
      rw [← hmail0]
      exact hidx s0 u0 h0
    simp only [applyEvent, handleLogin, hd]
    rw [if_pos hsome]

/-- Witness for C8: after account 1 logs in on socket `s1`, a second login
for account 1 from socket `s2` is rejected and changes nothing. -/
theorem single_session_per_account_witness :
    applyEvent stOneLogin (Event.login "s2" 1 "a") =
      (stOneLogin, [Emit.loginError LoginErr.alreadyOnline]) :=
  (single_session_per_account dbSolo stOneLogin
      (ReachVia.step _ _ ReachVia.init (by decide))).2 "s2" 1 "a"
      ⟨1, "a", "A", 1000⟩ "s1" ⟨"s1", 1, "a", "A", 1000⟩
      (by decide) (by decide) (by decide) (by decide)
